import Mathlib

/-!
Verification of the rmc-go reMarkable v6 parser and renderer.

This file gives a shallow embedding, in Lean 4, of the parts of the Go
source that the checked claims are about:

* the byte-stream primitives (`DataStream` in `parser/types.go`),
* the tagged block reader (`TaggedBlockReader`, with the per-block
  bounded payload),
* the scene decoder (`ReadSceneTree`, `processBlock` and the per-block
  readers in `internal/parser/text.go`),
* the text reconstructor (`BuildTextDocument`),
* the pen model (`export/pen.go`) over exact rationals,
* the stroke emitter (`drawStroke` in `internal/export/svg.go`), and
* the bounded sub-reader (`LimitedBufReader.Skip`, both the chunked
  `parser` variant and the older `rmscene` variant).

Modelling conventions:

* Bytes are `Nat`s; producers keep them below 256.  Multi-byte integers
  are decoded little-endian exactly as the Go code does.
* Go `uint64` arithmetic is `Nat` arithmetic with explicit `% 2 ^ 64`
  where the Go code can overflow (variable-length integers).
* IEEE-754 payloads (`float32`/`float64` fields) are carried as their
  raw little-endian bit patterns (`Nat`); where the code does float
  arithmetic on them (legacy v1 points, pen formulas) the model decodes
  the bits exactly into `ℚ` and idealises the float operations as exact
  rational arithmetic.  No checked claim depends on those values.
* Go strings are byte lists.
* Failure is explicit: stream reads return an error value carrying the
  post-error stream state, because the Go reader keeps its position (and
  the scene keeps its partial mutations) when a read fails.
* A Go `map` is modelled as an association list with in-place update,
  which preserves exactly the lookup/overwrite behaviour the code uses.
-/

set_option maxRecDepth 8192

namespace RmcGo

/-- CRDT identifier: `CrdtID` from `parser/types.go` (`Part1 : uint`,
`Part2 : uint64`). -/
structure CrdtID where
  part1 : Nat
  part2 : Nat
deriving Repr, DecidableEq

/-- Last-write-wins value with a timestamp: `LwwValue[T]`. -/
structure LwwValue (α : Type) where
  timestamp : CrdtID
  value : α
deriving Repr, DecidableEq

/-- RGBA colour read from the file (`RGBA` in `parser/types.go`). -/
structure RGBA where
  r : Nat
  g : Nat
  b : Nat
  a : Nat
deriving Repr, DecidableEq

/-- A stroke point (`Point`): `x`,`y` are raw float32 bit patterns,
`speed`/`width` are uint16, `direction`/`pressure` uint8. -/
structure Point where
  x : Nat
  y : Nat
  speed : Nat
  direction : Nat
  width : Nat
  pressure : Nat
deriving Repr, DecidableEq

/-- A stroke (`Line` in `parser/types.go`).  `thicknessScale` is the raw
float64 bit pattern and `startingLength` the raw float32 bit pattern. -/
structure Line where
  color : Nat
  colorOverride : Option RGBA
  tool : Nat
  points : List Point
  thicknessScale : Nat
  startingLength : Nat
  moveID : Option CrdtID
deriving Repr, DecidableEq

/-- An item of the root-text CRDT sequence (`CrdtSequenceItem` whose
`Value` is a string).  The `Option` mirrors the `interface{}` value that
`BuildTextDocument` checks for nil and for being a string. -/
structure TextItem where
  itemID : CrdtID
  leftID : CrdtID
  rightID : CrdtID
  deletedLength : Nat
  value : Option (List Nat)
deriving Repr, DecidableEq

/-- The root text (`Text` in `parser/types.go`).  `posX`/`posY` are raw
float64 bit patterns and `width` a raw float32 bit pattern. -/
structure Text where
  items : List TextItem
  styles : List (CrdtID × LwwValue Nat)
  posX : Nat
  posY : Nat
  width : Nat
deriving Repr, DecidableEq

/-- The value of a scene child: either a reference to a group (Go stores
a `*Group` pointer aliased with the `Nodes` map, so the model stores the
node id) or a line.  The parser never places a `Text` in children. -/
inductive SceneValue where
  | groupRef (id : CrdtID)
  | line (l : Line)
deriving Repr, DecidableEq

/-- An item of a group's child sequence (`CrdtSequenceItem`). -/
structure CrdtSequenceItem where
  itemID : CrdtID
  leftID : CrdtID
  rightID : CrdtID
  deletedLength : Nat
  value : Option SceneValue
deriving Repr, DecidableEq

/-- A layer/group (`Group` in `parser/types.go`).  The label value is a
byte string; `anchorThreshold`/`anchorOriginX` carry float32 bits. -/
structure Group where
  nodeID : CrdtID
  children : List CrdtSequenceItem
  label : LwwValue (List Nat)
  visible : LwwValue Bool
  anchorID : Option (LwwValue CrdtID)
  anchorType : Option (LwwValue Nat)
  anchorThreshold : Option (LwwValue Nat)
  anchorOriginX : Option (LwwValue Nat)
deriving Repr, DecidableEq

/-- The scene (`SceneTree`).  `nodes` models the Go `map[CrdtID]*Group`;
the root is the entry at `(0, 1)`. -/
structure SceneTree where
  nodes : List (CrdtID × Group)
  rootText : Option Text
deriving Repr, DecidableEq

/-- Association-list lookup, modelling Go map lookup. -/
def lookupA {V : Type} : List (CrdtID × V) → CrdtID → Option V
  | [], _ => none
  | (k, v) :: rest, key => if k = key then some v else lookupA rest key

/-- Association-list update, modelling Go map assignment: replace the
existing entry in place, or append a new one. -/
def upsertA {V : Type} : List (CrdtID × V) → CrdtID → V → List (CrdtID × V)
  | [], key, v => [(key, v)]
  | (k, w) :: rest, key, v =>
      if k = key then (k, v) :: rest else (k, w) :: upsertA rest key v

/-- `NewEmptyGroup`: empty label with zero timestamp, visible `true`. -/
def NewEmptyGroup (id : CrdtID) : Group :=
  { nodeID := id, children := [],
    label := { timestamp := ⟨0, 0⟩, value := [] },
    visible := { timestamp := ⟨0, 0⟩, value := true },
    anchorID := none, anchorType := none,
    anchorThreshold := none, anchorOriginX := none }

/-- `NewSceneTree`: a single root group with node id `(0, 1)`. -/
def NewSceneTree : SceneTree :=
  { nodes := [(⟨0, 1⟩, NewEmptyGroup ⟨0, 1⟩)], rootText := none }

/-! ## Byte-stream primitives (`DataStream`)

A stream computation consumes a byte list and either succeeds with a
value and the remaining bytes, or fails carrying the remaining bytes at
the point of failure (Go readers keep their position on error; a failed
`io.ReadFull` has consumed everything available). -/

/-- Result of a stream read: the error case keeps the post-error stream,
mirroring a Go reader whose position survives the error. -/
inductive DRes (α : Type) where
  | ok (a : α) (rest : List Nat)
  | err (e : String) (rest : List Nat)
deriving Repr, DecidableEq

/-- A byte-stream computation. -/
def DSt (α : Type) : Type := List Nat → DRes α

instance : Monad DSt where
  pure a := fun pay => .ok a pay
  bind x f := fun pay =>
    match x pay with
    | .ok a pay' => f a pay'
    | .err e pay' => .err e pay'

/-- Fail without consuming further input. -/
def dthrow {α : Type} (e : String) : DSt α := fun pay => .err e pay

namespace DataStream

/-- `ReadBytes(n)`: exactly `n` bytes or an error.  On shortage Go's
`io.ReadFull` consumes everything available before failing. -/
def readBytes (n : Nat) : DSt (List Nat) := fun pay =>
  if n ≤ pay.length then .ok (pay.take n) (pay.drop n)
  else .err "unexpected EOF" []

/-- `ReadUint8`. -/
def readUint8 : DSt Nat := fun pay =>
  match pay with
  | [] => .err "unexpected EOF" []
  | b :: rest => .ok b rest

/-- Little-endian value of a byte list (first byte least significant). -/
def leVal : List Nat → Nat
  | [] => 0
  | b :: rest => b + 256 * leVal rest

/-- `ReadUint16` (little-endian). -/
def readUint16 : DSt Nat := do
  let buf ← readBytes 2
  pure (leVal buf)

/-- `ReadUint32` (little-endian). -/
def readUint32 : DSt Nat := do
  let buf ← readBytes 4
  pure (leVal buf)

/-- `ReadBool`: one byte, non-zero is true. -/
def readBool : DSt Bool := do
  let b ← readUint8
  pure (b != 0)

/-- `ReadFloat32`: four bytes; the model keeps the raw bit pattern. -/
def readFloat32 : DSt Nat := do
  let buf ← readBytes 4
  pure (leVal buf)

/-- `ReadFloat64`: eight bytes; the model keeps the raw bit pattern. -/
def readFloat64 : DSt Nat := do
  let buf ← readBytes 8
  pure (leVal buf)

/-- The loop of `ReadVarUint`: 7-bit little-endian groups, MSB is the
continuation bit.  `result |= uint64(b&0x7F) << shift` is Go `uint64`
arithmetic, so each contribution is truncated to 64 bits (a shift count
of 64 or more yields 0). -/
def readVarUintAux : List Nat → Nat → Nat → DRes Nat
  | [], _, _ => .err "unexpected EOF" []
  | b :: rest, result, shift =>
      let result' := result ||| (((b &&& 0x7F) <<< shift) % 2 ^ 64)
      if b &&& 0x80 == 0 then .ok result' rest
      else readVarUintAux rest result' (shift + 7)

/-- `ReadVarUint`. -/
def readVarUint : DSt Nat := fun pay => readVarUintAux pay 0 0

/-- `ReadCrdtID`: a `uint8` part and a varuint part. -/
def readCrdtID : DSt CrdtID := do
  let part1 ← readUint8
  let part2 ← readVarUint
  pure ⟨part1, part2⟩

/-- `ReadString`: varuint length, one ignored is-ascii byte, then the
raw bytes.  Go converts the `uint64` length with `int(length)`; a length
of `2^63` or more becomes negative and `make([]byte, n)` panics — the
model folds that abort into a read failure. -/
def readString : DSt (List Nat) := do
  let length ← readVarUint
  let _isAscii ← readBool
  if length == 0 then pure []
  else if length < 2 ^ 63 then readBytes length
  else dthrow "makeslice: len out of range"

/-- `ReadTag`: a varuint decomposed into (index = value >> 4, type =
value & 0xF), checked against the expected pair.  The tag bytes stay
consumed when the check fails. -/
def readTag (expectedIndex expectedType : Nat) : DSt Unit := do
  let x ← readVarUint
  let index := x >>> 4
  let tagType := x &&& 0xF
  if index ≠ expectedIndex then dthrow "unexpected tag index"
  else if tagType ≠ expectedType then dthrow "unexpected tag type"
  else pure ()

end DataStream

/-! ## Tagged block reader (`TaggedBlockReader`)

Within a block the reads go through a bounded sub-reader capped at the
declared block length; the model's stream is exactly the block payload
still available, so the cap and the end of input coincide (see
`readBlocksLoop`, which cuts the payload out of the input). -/

/-- Tag type codes. -/
def tagID : Nat := 0xF
/-- Length-prefixed sub-block tag type. -/
def tagLength4 : Nat := 0xC
/-- Eight-byte value tag type. -/
def tagByte8 : Nat := 0x8
/-- Four-byte value tag type. -/
def tagByte4 : Nat := 0x4
/-- One-byte value tag type. -/
def tagByte1 : Nat := 0x1

namespace Tagged

open DataStream

/-- `ReadSubblock`: tag `(index, Length4)` then a `uint32` length. -/
def readSubblock (index : Nat) : DSt Nat := do
  readTag index tagLength4
  readUint32

/-- The pure check behind `HasSubblock`: peek 10 bytes (failing if fewer
remain in the block), decode a varuint from them with the same 64-bit
truncation as `ReadVarUint`, and test the (index, Length4) pair. -/
def peekVarUint : List Nat → Nat → Nat → Nat
  | [], result, _ => result
  | b :: rest, result, shift =>
      let result' := result ||| (((b &&& 0x7F) <<< shift) % 2 ^ 64)
      if b &&& 0x80 == 0 then result'
      else peekVarUint rest result' (shift + 7)

/-- `HasSubblock` as a pure function of the unread payload. -/
def checkSubblockTag (pay : List Nat) (index : Nat) : Bool :=
  if pay.length < 10 then false
  else
    let x := peekVarUint (pay.take 10) 0 0
    (x >>> 4 == index) && (x &&& 0xF == tagLength4)

/-- `HasSubblock`: a non-consuming look-ahead. -/
def hasSubblock (index : Nat) : DSt Bool := fun pay =>
  .ok (checkSubblockTag pay index) pay

/-- `ReadID`: tag `(index, ID)` then a CRDT id. -/
def readID (index : Nat) : DSt CrdtID := do
  readTag index tagID
  readCrdtID

/-- `ReadBool`: tag `(index, Byte1)` then a boolean byte. -/
def readBool (index : Nat) : DSt Bool := do
  readTag index tagByte1
  DataStream.readBool

/-- `ReadByte`: tag `(index, Byte1)` then a byte. -/
def readByte (index : Nat) : DSt Nat := do
  readTag index tagByte1
  readUint8

/-- `ReadInt`: tag `(index, Byte4)` then a `uint32`. -/
def readInt (index : Nat) : DSt Nat := do
  readTag index tagByte4
  readUint32

/-- `ReadFloat`: tag `(index, Byte4)` then float32 bits. -/
def readFloat (index : Nat) : DSt Nat := do
  readTag index tagByte4
  readFloat32

/-- `ReadDouble`: tag `(index, Byte8)` then float64 bits. -/
def readDouble (index : Nat) : DSt Nat := do
  readTag index tagByte8
  readFloat64

/-- `ReadLwwBool`. -/
def readLwwBool (index : Nat) : DSt (LwwValue Bool) := do
  let _ ← readSubblock index
  let timestamp ← readID 1
  let value ← readBool 2
  pure ⟨timestamp, value⟩

/-- `ReadLwwByte`. -/
def readLwwByte (index : Nat) : DSt (LwwValue Nat) := do
  let _ ← readSubblock index
  let timestamp ← readID 1
  let value ← readByte 2
  pure ⟨timestamp, value⟩

/-- `ReadLwwFloat` (value kept as float32 bits). -/
def readLwwFloat (index : Nat) : DSt (LwwValue Nat) := do
  let _ ← readSubblock index
  let timestamp ← readID 1
  let value ← readFloat 2
  pure ⟨timestamp, value⟩

/-- `ReadLwwID`. -/
def readLwwID (index : Nat) : DSt (LwwValue CrdtID) := do
  let _ ← readSubblock index
  let timestamp ← readID 1
  let value ← readID 2
  pure ⟨timestamp, value⟩

/-- `TaggedBlockReader.ReadString`: a sub-block holding a string. -/
def readStringAt (index : Nat) : DSt (List Nat) := do
  let _ ← readSubblock index
  DataStream.readString

/-- `ReadLwwString`. -/
def readLwwString (index : Nat) : DSt (LwwValue (List Nat)) := do
  let _ ← readSubblock index
  let timestamp ← readID 1
  let value ← readStringAt 2
  pure ⟨timestamp, value⟩

end Tagged

/-! ## Scene decoder (`SceneTree` methods in `internal/parser/text.go`)

Per-block computations act on the unread block payload together with the
scene tree.  Errors keep the state, because the Go code mutates the tree
in place and `ReadSceneTree` swallows per-block errors, keeping whatever
mutations the block made before failing. -/

/-- State of a per-block computation: the unread payload bytes and the
scene tree being assembled. -/
structure BState where
  pay : List Nat
  tree : SceneTree
deriving Repr, DecidableEq

/-- Result of a per-block computation; the error case keeps the state at
the point of failure. -/
inductive PRes (α : Type) where
  | ok (a : α) (s : BState)
  | err (e : String) (s : BState)
deriving Repr, DecidableEq

/-- A per-block computation. -/
def PSt (α : Type) : Type := BState → PRes α

instance : Monad PSt where
  pure a := fun s => .ok a s
  bind x f := fun s =>
    match x s with
    | .ok a s' => f a s'
    | .err e s' => .err e s'

/-- Run a pure stream read against the block payload. -/
def liftD {α : Type} (d : DSt α) : PSt α := fun s =>
  match d s.pay with
  | .ok a pay' => .ok a ⟨pay', s.tree⟩
  | .err e pay' => .err e ⟨pay', s.tree⟩

/-- Look a node up in the tree (`st.Nodes[id]`). -/
def getNode (id : CrdtID) : PSt (Option Group) := fun s =>
  .ok (lookupA s.tree.nodes id) s

/-- Store a node (`st.Nodes[id] = g`, and every alias sees the update
because children reference groups by id). -/
def setNode (id : CrdtID) (g : Group) : PSt Unit := fun s =>
  .ok () ⟨s.pay, { s.tree with nodes := upsertA s.tree.nodes id g }⟩

/-- Create the node if it does not exist yet. -/
def ensureNode (id : CrdtID) : PSt Unit := do
  match ← getNode id with
  | some _ => pure ()
  | none => setNode id (NewEmptyGroup id)

/-- Update an existing node in place (Go mutates through the pointer). -/
def modifyNode (id : CrdtID) (f : Group → Group) : PSt Unit := do
  match ← getNode id with
  | some g => setNode id (f g)
  | none => pure ()

/-- Set the root text (`st.RootText = ...`). -/
def setRootText (t : Text) : PSt Unit := fun s =>
  .ok () ⟨s.pay, { s.tree with rootText := some t }⟩

/-- `readSceneTreeBlock` (block type 0x01). -/
def readSceneTreeBlock : PSt Unit := do
  let treeID ← liftD (Tagged.readID 1)
  let _nodeID ← liftD (Tagged.readID 2)
  let _isUpdate ← liftD (Tagged.readBool 3)
  let _ ← liftD (Tagged.readSubblock 4)
  let parentID ← liftD (Tagged.readID 1)
  ensureNode treeID
  ensureNode parentID
  modifyNode parentID (fun parent =>
    { parent with children := parent.children ++
        [{ itemID := treeID, leftID := ⟨0, 0⟩, rightID := ⟨0, 0⟩,
           deletedLength := 0, value := some (.groupRef treeID) }] })

/-- `readTreeNodeBlock` (block type 0x02).  When the node does not exist
the Go code creates it from the label and visibility and returns without
looking at the anchor sub-block. -/
def readTreeNodeBlock : PSt Unit := do
  let nodeID ← liftD (Tagged.readID 1)
  let label ← liftD (Tagged.readLwwString 2)
  let visible ← liftD (Tagged.readLwwBool 3)
  match ← getNode nodeID with
  | none =>
      setNode nodeID
        { nodeID := nodeID, children := [], label := label, visible := visible,
          anchorID := none, anchorType := none,
          anchorThreshold := none, anchorOriginX := none }
  | some node => do
      setNode nodeID { node with label := label, visible := visible }
      if ← liftD (Tagged.hasSubblock 7) then
        let anchorID ← liftD (Tagged.readLwwID 7)
        modifyNode nodeID (fun g => { g with anchorID := some anchorID })
        let anchorType ← liftD (Tagged.readLwwByte 8)
        modifyNode nodeID (fun g => { g with anchorType := some anchorType })
        let anchorThreshold ← liftD (Tagged.readLwwFloat 9)
        modifyNode nodeID (fun g => { g with anchorThreshold := some anchorThreshold })
        let anchorOriginX ← liftD (Tagged.readLwwFloat 10)
        modifyNode nodeID (fun g => { g with anchorOriginX := some anchorOriginX })
      else pure ()

/-- `readSceneGroupItemBlock` (block type 0x04). -/
def readSceneGroupItemBlock : PSt Unit := do
  let parentID ← liftD (Tagged.readID 1)
  let itemID ← liftD (Tagged.readID 2)
  let leftID ← liftD (Tagged.readID 3)
  let rightID ← liftD (Tagged.readID 4)
  let deletedLength ← liftD (Tagged.readInt 5)
  let nodeID ← do
    if ← liftD (Tagged.hasSubblock 6) then
      let _ ← liftD (Tagged.readSubblock 6)
      let _itemType ← liftD DataStream.readUint8
      let id ← liftD (Tagged.readID 2)
      pure (some id)
    else pure (none : Option CrdtID)
  match nodeID with
  | none => pure ()
  | some nid => do
      ensureNode parentID
      ensureNode nid
      modifyNode parentID (fun parent =>
        { parent with children := parent.children ++
            [{ itemID := itemID, leftID := leftID, rightID := rightID,
               deletedLength := deletedLength, value := some (.groupRef nid) }] })

/-! ### Line bodies -/

/-- Exact value of a float32 bit pattern as a rational.  Infinities and
NaN (exponent 255) are mapped to 0 by convention; no checked claim
depends on such inputs. -/
def decodeF32 (bits : Nat) : ℚ :=
  let b : Nat := bits % 2 ^ 32
  let sign : Nat := b / 2 ^ 31
  let exp : Nat := (b / 2 ^ 23) % 2 ^ 8
  let frac : Nat := b % 2 ^ 23
  if exp == 255 then 0
  else
    let mag : ℚ :=
      if exp == 0 then (frac : ℚ) / 2 ^ 149
      else ((2 ^ 23 + frac : Nat) : ℚ) * (2 : ℚ) ^ ((exp : ℤ) - 150)
    if sign == 1 then -mag else mag

/-- Exact value of a float64 bit pattern as a rational; exponent 2047
(infinities, NaN) maps to 0 by convention. -/
def decodeF64 (bits : Nat) : ℚ :=
  let b : Nat := bits % 2 ^ 64
  let sign : Nat := b / 2 ^ 63
  let exp : Nat := (b / 2 ^ 52) % 2 ^ 11
  let frac : Nat := b % 2 ^ 52
  if exp == 2047 then 0
  else
    let mag : ℚ :=
      if exp == 0 then (frac : ℚ) / 2 ^ 1074
      else ((2 ^ 52 + frac : Nat) : ℚ) * (2 : ℚ) ^ ((exp : ℤ) - 1075)
    if sign == 1 then -mag else mag

/-- Truncation of a rational toward zero. -/
def truncQ (q : ℚ) : ℤ := q.num / (q.den : ℤ)

/-- Go conversion of a float value to `uint16`.  Out-of-range and NaN
conversions are implementation-specific in Go; the model truncates
toward zero, maps negatives to 0 and reduces modulo `2 ^ 16`. -/
def goUint16OfQ (q : ℚ) : Nat := (truncQ q).toNat % 2 ^ 16

/-- Go conversion of a float value to `uint8`, same conventions. -/
def goUint8OfQ (q : ℚ) : Nat := (truncQ q).toNat % 2 ^ 8

/-- The float64 value of Go's `math.Pi * 2`, as an exact rational. -/
def pi2F64 : ℚ := 884279719003555 / 2 ^ 47

/-- `readPoint`.  Version 1 stores all six fields as float32 and the
code converts (`speed*4`, `direction*255/2π`, `width*4`, `pressure*255`)
— idealised here as exact rational arithmetic on the decoded bits.  All
other versions read the compact layout. -/
def readPoint (version : Nat) : DSt Point := do
  let x ← DataStream.readFloat32
  let y ← DataStream.readFloat32
  if version == 1 then do
    let speedF ← DataStream.readFloat32
    let dirF ← DataStream.readFloat32
    let widthF ← DataStream.readFloat32
    let pressureF ← DataStream.readFloat32
    pure { x := x, y := y,
           speed := goUint16OfQ (decodeF32 speedF * 4),
           direction := goUint8OfQ (255 * decodeF32 dirF / pi2F64),
           width := goUint16OfQ (decodeF32 widthF * 4),
           pressure := goUint8OfQ (decodeF32 pressureF * 255) }
  else do
    let speed ← DataStream.readUint16
    let width ← DataStream.readUint16
    let direction ← DataStream.readUint8
    let pressure ← DataStream.readUint8
    pure { x := x, y := y, speed := speed, direction := direction,
           width := width, pressure := pressure }

/-- The `for i := 0; i < numPoints; i++` loop of `readLine`. -/
def readPoints (version : Nat) : Nat → DSt (List Point)
  | 0 => pure []
  | n + 1 => do
      let p ← readPoint version
      let rest ← readPoints version n
      pure (p :: rest)

/-- `extra, _ := reader.data.ReadBytes(n)`: the error is discarded but a
failed read has still consumed everything available. -/
def readBytesDiscardErr (n : Nat) : DSt Unit := fun pay =>
  if n ≤ pay.length then .ok () (pay.drop n) else .ok () []

/-- `id, err := reader.ReadID(index); if err == nil { ... }`: read an id
keeping the post-error position when it fails. -/
def tryReadID (index : Nat) : DSt (Option CrdtID) := fun pay =>
  match Tagged.readID index pay with
  | .ok id pay' => .ok (some id) pay'
  | .err _ pay' => .ok none pay'

/-- `_, err := reader.data.ReadBytes(n); err == nil`. -/
def tryReadBytes (n : Nat) : DSt Bool := fun pay =>
  if n ≤ pay.length then .ok true (pay.drop n) else .ok false []

/-- `v, err := reader.data.ReadUint8()` with the error kept as `none`. -/
def tryReadUint8 : DSt (Option Nat) := fun pay =>
  match pay with
  | [] => .ok none []
  | b :: rest => .ok (some b) rest

/-- Modelled from the spec: `RemainingInBlock` is declared on the
`parser`-package tagged reader, whose file is not among the provided
sources (only the older `rmscene` copy is); per §4.4.1 it reports how
many bytes of the block payload are still unread. -/
def remainingInBlock : DSt Nat := fun pay => .ok pay.length pay

/-- Modelled from the spec: `HardcodedColorMap` (RGBA → pen-colour enum)
is declared in a `parser`-package file not among the provided sources.
The spec only requires that *if* a known palette maps the RGBA to an
enum colour the id is rewritten; no checked claim depends on the table's
entries.  The representative entries below use the spec's §6 palette. -/
def HardcodedColorMap : List (RGBA × Nat) :=
  [(⟨251, 247, 25, 255⟩, 3),   -- Yellow
   (⟨255, 192, 203, 255⟩, 5),  -- Pink
   (⟨78, 105, 201, 255⟩, 6),   -- Blue
   (⟨179, 62, 57, 255⟩, 7)]    -- Red

/-- Lookup in the colour map. -/
def lookupColor : List (RGBA × Nat) → RGBA → Option Nat
  | [], _ => none
  | (k, v) :: rest, key => if k = key then some v else lookupColor rest key

/-- Point sizes per version (`PointSizeV1 = 0x18`, `PointSizeV2 = 0x0E`). -/
def pointSizeFor (version : Nat) : Nat := if version == 1 then 0x18 else 0x0E

/-- `readLine`: tool, colour, thickness, starting length, the points
sub-block (with non-fatal trailing bytes), the discarded timestamp, the
optional move id, and the trailing colour-override bytes.  Note the Go
composite literal at the end never sets `ColorOverride`, so the parsed
line always carries its zero value `nil`. -/
def readLine (version : Nat) : DSt Line := do
  let toolID ← Tagged.readInt 1
  let colorID ← Tagged.readInt 2
  let thicknessScale ← Tagged.readDouble 3
  let startingLength ← Tagged.readFloat 4
  let subblockLen ← Tagged.readSubblock 5
  let pointSize := pointSizeFor version
  let numPoints := subblockLen / pointSize
  let extraBytesInSubblock := subblockLen % pointSize
  let points ← readPoints version numPoints
  if extraBytesInSubblock > 0 then readBytesDiscardErr extraBytesInSubblock
  else pure ()
  let _timestamp ← Tagged.readID 6
  let moveID ← do
    if ← Tagged.hasSubblock 7 then tryReadID 7
    else pure (none : Option CrdtID)
  let remaining ← remainingInBlock
  let colorID ← do
    if remaining ≥ 6 then do
      if ← tryReadBytes 2 then do
        let b ← tryReadUint8
        let g ← tryReadUint8
        let r ← tryReadUint8
        let a ← tryReadUint8
        match b, g, r, a with
        | some b, some g, some r, some a =>
            let rgba : RGBA := { r := r, g := g, b := b, a := a }
            match lookupColor HardcodedColorMap rgba with
            | some mapped => pure mapped
            | none => pure colorID
        | _, _, _, _ => pure colorID
      else pure colorID
    else pure colorID
  pure { color := colorID, colorOverride := none, tool := toolID,
         points := points, thicknessScale := thicknessScale,
         startingLength := startingLength, moveID := moveID }

/-- `readSceneLineItemBlock` (block type 0x05). -/
def readSceneLineItemBlock (version : Nat) : PSt Unit := do
  let parentID ← liftD (Tagged.readID 1)
  let itemID ← liftD (Tagged.readID 2)
  let leftID ← liftD (Tagged.readID 3)
  let rightID ← liftD (Tagged.readID 4)
  let deletedLength ← liftD (Tagged.readInt 5)
  let line ← do
    if ← liftD (Tagged.hasSubblock 6) then
      let _ ← liftD (Tagged.readSubblock 6)
      let _itemType ← liftD DataStream.readUint8
      let l ← liftD (readLine version)
      pure (some l)
    else pure (none : Option Line)
  match line with
  | none => pure ()
  | some l => do
      ensureNode parentID
      modifyNode parentID (fun parent =>
        { parent with children := parent.children ++
            [{ itemID := itemID, leftID := leftID, rightID := rightID,
               deletedLength := deletedLength, value := some (.line l) }] })

/-! ### Root text -/

/-- `readTextItem`: one CRDT string item of the root text. -/
def readTextItem : DSt TextItem := do
  let _ ← Tagged.readSubblock 0
  let itemID ← Tagged.readID 2
  let leftID ← Tagged.readID 3
  let rightID ← Tagged.readID 4
  let deletedLength ← Tagged.readInt 5
  let value ← do
    if ← Tagged.hasSubblock 6 then do
      let text ← Tagged.readStringAt 6
      pure (some text)
    else pure (some ([] : List Nat))
  pure { itemID := itemID, leftID := leftID, rightID := rightID,
         deletedLength := deletedLength, value := value }

/-- `readTextFormat`: an untagged char id, a tagged timestamp, and a
sub-block with a reserved byte (expected 17, unchecked) and the format
code. -/
def readTextFormat : DSt (CrdtID × LwwValue Nat) := do
  let charID ← DataStream.readCrdtID
  let timestamp ← Tagged.readID 1
  let _ ← Tagged.readSubblock 2
  let _c ← DataStream.readUint8
  let formatCode ← DataStream.readUint8
  pure (charID, { timestamp := timestamp, value := formatCode })

/-- Go's `int(n)` applied to a `uint64` loop bound: values of `2^63` or
more wrap to a negative `int`, so the `for i := 0; i < int(n)` loop runs
zero times. -/
def goIntLoopCount (n : Nat) : Nat := if n < 2 ^ 63 then n else 0

/-- The text-item reading loop of `readRootTextBlock`. -/
def readTextItemsLoop : Nat → DSt (List TextItem)
  | 0 => pure []
  | n + 1 => do
      let item ← readTextItem
      let rest ← readTextItemsLoop n
      pure (item :: rest)

/-- The format reading loop of `readRootTextBlock`: each entry is stored
with `styles[charID] = style`, a plain map assignment. -/
def readFormatsLoop : Nat → List (CrdtID × LwwValue Nat) → DSt (List (CrdtID × LwwValue Nat))
  | 0, styles => pure styles
  | n + 1, styles => do
      let (charID, style) ← readTextFormat
      readFormatsLoop n (upsertA styles charID style)

/-- `readRootTextBlock` (block type 0x07). -/
def readRootTextBlock : PSt Unit := do
  let _blockID ← liftD (Tagged.readID 1)
  let _ ← liftD (Tagged.readSubblock 2)
  let _ ← liftD (Tagged.readSubblock 1)
  let _ ← liftD (Tagged.readSubblock 1)
  let numTextItems ← liftD DataStream.readVarUint
  let textItems ← liftD (readTextItemsLoop (goIntLoopCount numTextItems))
  let _ ← liftD (Tagged.readSubblock 2)
  let _ ← liftD (Tagged.readSubblock 1)
  let numFormats ← liftD DataStream.readVarUint
  let styles ← liftD (readFormatsLoop (goIntLoopCount numFormats) [])
  let _ ← liftD (Tagged.readSubblock 3)
  let posX ← liftD DataStream.readFloat64
  let posY ← liftD DataStream.readFloat64
  let width ← liftD (Tagged.readFloat 4)
  setRootText { items := textItems, styles := styles,
                posX := posX, posY := posY, width := width }

/-! ### The block loop -/

/-- Metadata of a block header. -/
structure BlockInfo where
  size : Nat
  blockType : Nat
  minVersion : Nat
  currentVersion : Nat
deriving Repr, DecidableEq

/-- `processBlock`: dispatch on the block type.  MigrationInfo (0x00),
AuthorIDs (0x09), PageInfo (0x0A), SceneInfo (0x0D) and every unknown
type are skipped. -/
def processBlock (info : BlockInfo) : PSt Unit :=
  if info.blockType = 0x01 then readSceneTreeBlock
  else if info.blockType = 0x02 then readTreeNodeBlock
  else if info.blockType = 0x04 then readSceneGroupItemBlock
  else if info.blockType = 0x05 then readSceneLineItemBlock info.currentVersion
  else if info.blockType = 0x07 then readRootTextBlock
  else pure ()

/-- Run one block's processing and keep the tree, swallowing any
per-block error exactly as `ReadSceneTree` does (the error is logged and
the partially mutated tree is kept). -/
def applyBlock (tree : SceneTree) (info : BlockInfo) (payload : List Nat) : SceneTree :=
  match processBlock info ⟨payload, tree⟩ with
  | .ok _ s => s.tree
  | .err _ s => s.tree

/-- The block loop of `ReadSceneTree`.  Each iteration reads the 8-byte
block header (a clean EOF exactly at a block boundary ends the loop; a
truncated header is a fatal error), binds the declared payload, lets
`processBlock` run on it with errors swallowed, and resyncs to the end
of the block (`EndBlock`/`Skip`), which is fatal when the input ends
before the declared block length.  The fuel argument only serves
termination; `ReadSceneTree` passes more than the number of blocks any
input can contain. -/
def readBlocksLoop : Nat → List Nat → SceneTree → Except String SceneTree
  | 0, _, _ => .error "out of fuel"
  | fuel + 1, avail, tree =>
      if avail.isEmpty then .ok tree
      else if avail.length < 8 then .error "failed to read block"
      else
        let blockLength := DataStream.leVal (avail.take 4)
        let minVersion := avail.getD 5 0
        let currentVersion := avail.getD 6 0
        let blockType := avail.getD 7 0
        let rest := avail.drop 8
        let payload := rest.take blockLength
        let tree' := applyBlock tree
          { size := blockLength, blockType := blockType,
            minVersion := minVersion, currentVersion := currentVersion } payload
        if blockLength ≤ rest.length then
          readBlocksLoop fuel (rest.drop blockLength) tree'
        else .error "failed to end block"

/-- The 43-byte v6 header. -/
def headerV6 : List Nat :=
  ("reMarkable .lines file, version=6          ".data.map Char.toNat)

/-- `ReadSceneTree`: validate the header, then run the block loop. -/
def ReadSceneTree (input : List Nat) : Except String SceneTree :=
  if input.take 43 = headerV6 then
    readBlocksLoop (input.length + 1) (input.drop 43) NewSceneTree
  else .error "failed to read header"

/-! ## Text reconstructor (`BuildTextDocument`) -/

/-- Paragraph style codes (`ParagraphStyle`). -/
def StyleBasic : Nat := 0
/-- Plain style. -/
def StylePlain : Nat := 1
/-- Heading style. -/
def StyleHeading : Nat := 2
/-- Bold style. -/
def StyleBold : Nat := 3
/-- Bullet style. -/
def StyleBullet : Nat := 4
/-- Second-level bullet style. -/
def StyleBullet2 : Nat := 5
/-- Checkbox style. -/
def StyleCheckbox : Nat := 6
/-- Checked checkbox style. -/
def StyleCheckboxChecked : Nat := 7
/-- Numbered-list style. -/
def StyleNumbered : Nat := 10

/-- A reconstructed paragraph (`Paragraph` in `internal/parser/text.go`). -/
structure Paragraph where
  text : List Nat
  style : Nat
  startID : CrdtID
deriving Repr, DecidableEq

/-- A reconstructed document (`TextDocument`). -/
structure TextDocument where
  paragraphs : List Paragraph
deriving Repr, DecidableEq

/-- The first loop of `BuildTextDocument`: skip tombstones and nil or
non-string values, record each kept item's concatenation start offset,
and concatenate the strings. -/
def collectItems : List TextItem → Nat → List (CrdtID × Nat) × List Nat
  | [], _ => ([], [])
  | it :: rest, pos =>
      if it.deletedLength > 0 then collectItems rest pos
      else
        match it.value with
        | none => collectItems rest pos
        | some str =>
            let (starts, txt) := collectItems rest (pos + str.length)
            ((it.itemID, pos) :: starts, str ++ txt)

/-- The inner search of `BuildTextDocument`: find the first recorded
item whose range `[start, itemEnd)` covers `pos`, where `itemEnd` is the
next item's start (or the full text length for the last item), and
derive the character id by adding the offset to the item id's `part2`. -/
def findCovering (pos total : Nat) : List (CrdtID × Nat) → Option CrdtID
  | [] => none
  | (id, st) :: rest =>
      let itemEnd : Nat :=
        match rest with
        | [] => total
        | (_, st2) :: _ => st2
      if st ≤ pos ∧ pos < itemEnd then some ⟨id.part1, id.part2 + (pos - st)⟩
      else findCovering pos total rest

/-- The paragraph loop of `BuildTextDocument`.  For `i = 0` the style
and start ids are the first recorded item's id; for `i > 0` the style id
is derived from the newline at `charPos - 1` and the start id from
`charPos` itself.  A missing style entry (or no covering item) leaves
the paragraph `Plain`. -/
def buildParas (styles : List (CrdtID × LwwValue Nat))
    (itemStarts : List (CrdtID × Nat)) (total : Nat) :
    List (List Nat) → Nat → Nat → List Paragraph
  | [], _, _ => []
  | line :: rest, i, charPos =>
      let ids : Option CrdtID × CrdtID :=
        if i == 0 then
          match itemStarts with
          | (id, _) :: _ => (some id, id)
          | [] => (none, ⟨0, 0⟩)
        else
          let styleCharPos := charPos - 1
          ((findCovering styleCharPos total itemStarts),
           (findCovering charPos total itemStarts).getD ⟨0, 0⟩)
      let paraStyle : Nat :=
        match ids.1 with
        | some styleID =>
            match lookupA styles styleID with
            | some v => v.value
            | none => StylePlain
        | none => StylePlain
      { text := line, style := paraStyle, startID := ids.2 } ::
        buildParas styles itemStarts total rest (i + 1) (charPos + line.length + 1)

/-- `BuildTextDocument` (the current version in
`internal/parser/text.go`): concatenate the kept items, split on the
newline byte, and style each paragraph from the newline that ended the
previous one (the first from the first item's id). -/
def BuildTextDocument (text : Option Text) : TextDocument :=
  match text with
  | none => { paragraphs := [] }
  | some t =>
      let (itemStarts, fullText) := collectItems t.items 0
      if fullText = [] then { paragraphs := [] }
      else
        let lines := fullText.splitOn 10
        { paragraphs := buildParas t.styles itemStarts fullText.length lines 0 0 }

/-! ## Pen model (`export/pen.go`), over exact rationals

Go computes in `float64`; the model idealises every float constant and
operation as exact rational arithmetic (e.g. `0.1` as `1/10`).  The two
`math.Pow` calls with fractional exponents are irrational in general
and are modelled by explicit floor-square-root approximations; no
checked claim depends on their values. -/

/-- An RGB triple of Go `int`s. -/
structure RGB where
  r : ℤ
  g : ℤ
  b : ℤ
deriving Repr, DecidableEq

/-- The colour palette `rmPalette` (current `export/pen.go`). -/
def rmPalette : List (Nat × RGB) :=
  [(0, ⟨0, 0, 0⟩), (1, ⟨144, 144, 144⟩), (2, ⟨255, 255, 255⟩),
   (3, ⟨251, 247, 25⟩), (4, ⟨0, 255, 0⟩), (5, ⟨255, 192, 203⟩),
   (6, ⟨78, 105, 201⟩), (7, ⟨179, 62, 57⟩), (8, ⟨125, 125, 125⟩),
   (9, ⟨255, 237, 117⟩), (10, ⟨161, 216, 125⟩), (11, ⟨139, 208, 229⟩),
   (12, ⟨183, 130, 205⟩), (13, ⟨247, 232, 81⟩)]

/-- Palette lookup (`rmPalette[color]` with its ok flag). -/
def lookupPalette : List (Nat × RGB) → Nat → Option RGB
  | [], _ => none
  | (k, v) :: rest, key => if k = key then some v else lookupPalette rest key

/-- The `pen` struct. -/
structure PenModel where
  name : String
  baseWidth : ℚ
  baseColor : RGB
  segmentLength : Nat
  baseOpacity : ℚ
  strokeLinecap : String
  strokeOpacity : ℚ
  thicknessScale : ℚ
deriving Repr, DecidableEq

/-- `createPen`: base colour from the override when present, else the
palette (opaque black as fallback); then the per-tool switch. -/
def createPen (penType color : Nat) (colorOverride : Option RGBA)
    (thicknessScale : ℚ) : PenModel :=
  let baseColor : RGB :=
    match colorOverride with
    | some co => ⟨(co.r : ℤ), (co.g : ℤ), (co.b : ℤ)⟩
    | none => (lookupPalette rmPalette color).getD ⟨0, 0, 0⟩
  let p : PenModel :=
    { name := "", baseWidth := 0, baseColor := baseColor,
      segmentLength := 1000, baseOpacity := 1, strokeLinecap := "round",
      strokeOpacity := 1, thicknessScale := thicknessScale }
  if penType = 2 ∨ penType = 15 then
    { p with name := "Ballpoint", baseWidth := thicknessScale, segmentLength := 5 }
  else if penType = 4 ∨ penType = 17 then
    { p with name := "Fineliner", baseWidth := thicknessScale * (18 / 10) }
  else if penType = 3 ∨ penType = 16 then
    { p with name := "Marker", baseWidth := thicknessScale, segmentLength := 3 }
  else if penType = 1 ∨ penType = 14 then
    { p with name := "Pencil", baseWidth := thicknessScale, segmentLength := 2 }
  else if penType = 7 ∨ penType = 13 then
    { p with
      name := "MechanicalPencil", baseWidth := thicknessScale * thicknessScale,
      baseOpacity := 7 / 10 }
  else if penType = 0 ∨ penType = 12 then
    { p with
      name := "Brush", baseWidth := thicknessScale, segmentLength := 2,
      strokeLinecap := "round" }
  else if penType = 5 ∨ penType = 18 then
    { p with
      name := "Highlighter", baseWidth := 15, strokeLinecap := "square",
      baseOpacity := 3 / 10, strokeOpacity := 2 / 10 }
  else if penType = 6 then
    { p with
      name := "Eraser", baseWidth := thicknessScale * 2,
      strokeLinecap := "square",
      baseColor := (lookupPalette rmPalette 2).getD ⟨0, 0, 0⟩ }
  else if penType = 8 then
    { p with
      name := "EraseArea", baseWidth := thicknessScale,
      strokeLinecap := "square", baseOpacity := 0 }
  else if penType = 21 then
    { p with name := "Calligraphy", baseWidth := thicknessScale, segmentLength := 2 }
  else if penType = 23 then
    { p with
      name := "Shader", baseWidth := 12, strokeLinecap := "round",
      baseOpacity := 1 / 10 }
  else
    { p with name := "Unknown", baseWidth := thicknessScale }

/-- `clamp`: clip to `[0, 1]`. -/
def clamp (value : ℚ) : ℚ :=
  if value < 0 then 0 else if value > 1 then 1 else value

/-- `directionToTilt`: `direction · 2π / 255`, with `2π` the exact value
of the float64 constant `math.Pi * 2`. -/
def directionToTilt (direction : Nat) : ℚ := (direction : ℚ) * pi2F64 / 255

/-- Floor-square-root approximation of `√x` on nonnegative rationals
(exact when `x.num · x.den` is a perfect square). -/
def ratSqrt (x : ℚ) : ℚ := ((Nat.sqrt (x.num.toNat * x.den) : ℚ)) / (x.den : ℚ)

/-- Computable stand-in for `math.Pow(x, 1.5)` (`x · √x`, with `ratSqrt`
for the root).  The exact float result is out of the model's scope; no
checked claim depends on it. -/
def approxPow15 (x : ℚ) : ℚ := x * ratSqrt x

/-- Computable stand-in for `math.Pow(x, 1.8)` (taken as
`x² / √√x ≈ x^1.75`).  No checked claim depends on it. -/
def approxPow18 (x : ℚ) : ℚ :=
  if x = 0 then 0 else x * x / ratSqrt (ratSqrt x)

/-- `getSegmentColor`.  The `int(...)` conversions truncate toward
zero. -/
def getSegmentColor (p : PenModel) (point : Point) (_lastWidth : ℚ) : String :=
  if p.name = "Ballpoint" then
    let speed : ℚ := (point.speed : ℚ) / 4
    let pressure : ℚ := (point.pressure : ℚ) / 255
    let intensity := (1 / 10 : ℚ) * -(speed / 35) + (12 / 10) * pressure + 5 / 10
    let intensity := clamp intensity
    let factor := min |intensity - 1| (235 / 1000 : ℚ)
    let r := truncQ ((p.baseColor.r : ℚ) * (1 - factor))
    let g := truncQ ((p.baseColor.g : ℚ) * (1 - factor))
    let b := truncQ ((p.baseColor.b : ℚ) * (1 - factor))
    "rgb(" ++ toString r ++ "," ++ toString g ++ "," ++ toString b ++ ")"
  else if p.name = "Brush" then
    let speed : ℚ := (point.speed : ℚ) / 4
    let pressure : ℚ := (point.pressure : ℚ) / 255
    let intensity := approxPow15 pressure - (2 / 10) * (speed / 50)
    let intensity := clamp intensity
    let r := truncQ ((p.baseColor.r : ℚ) * intensity)
    let g := truncQ ((p.baseColor.g : ℚ) * intensity)
    let b := truncQ ((p.baseColor.b : ℚ) * intensity)
    "rgb(" ++ toString r ++ "," ++ toString g ++ "," ++ toString b ++ ")"
  else
    "rgb(" ++ toString p.baseColor.r ++ "," ++ toString p.baseColor.g ++ ","
      ++ toString p.baseColor.b ++ ")"

/-- `getSegmentWidth`. -/
def getSegmentWidth (p : PenModel) (point : Point) (lastWidth : ℚ) : ℚ :=
  let speed : ℚ := (point.speed : ℚ) / 4
  let pressure : ℚ := (point.pressure : ℚ) / 255
  let width : ℚ := (point.width : ℚ) / 4
  let tilt := directionToTilt point.direction
  if p.name = "Ballpoint" then
    (5 / 10 + pressure) + width - (5 / 10) * (speed / 50)
  else if p.name = "Marker" then
    (9 / 10) * (width - (4 / 10) * tilt) + (1 / 10) * lastWidth
  else if p.name = "Pencil" then
    let segWidth := (7 / 10) * ((((8 / 10) * p.baseWidth + (5 / 10) * pressure) * width)
      - (25 / 100) * approxPow18 tilt - (6 / 10) * (speed / 50))
    let maxWidth := p.baseWidth * 10
    if segWidth > maxWidth then maxWidth else segWidth
  else if p.name = "Brush" then
    (7 / 10) * (((1 + (14 / 10) * pressure) * width) - (5 / 10) * tilt - speed / 50)
  else if p.name = "Calligraphy" then
    (9 / 10) * (((1 + pressure) * width) - (3 / 10) * tilt) + (1 / 10) * lastWidth
  else p.baseWidth

/-- `getSegmentOpacity`: Pencil is `clamp(-0.1·s/35 + p) - 0.1`, every
other pen uses its base opacity. -/
def getSegmentOpacity (p : PenModel) (point : Point) (_lastWidth : ℚ) : ℚ :=
  let speed : ℚ := (point.speed : ℚ) / 4
  let pressure : ℚ := (point.pressure : ℚ) / 255
  if p.name = "Pencil" then
    let opacity := (1 / 10 : ℚ) * -(speed / 35) + pressure
    clamp opacity - 1 / 10
  else p.baseOpacity

/-! ## Stroke emission (`drawStroke` in `internal/export/svg.go`) -/

/-- `Scale = 72.0 / ScreenDPI`, idealised as the exact rational. -/
def scaleQ (v : ℚ) : ℚ := v * (72 / 226)

/-- Zero-padded three-digit rendering of a value below 1000. -/
def pad3 (n : Nat) : String :=
  if n < 10 then "00" ++ toString n
  else if n < 100 then "0" ++ toString n
  else toString n

/-- `%.3f` on a rational: round to three decimals (half away from
zero is idealised as `round`) and print sign, integer part and a
zero-padded fraction. -/
def fmt3 (q : ℚ) : String :=
  let n : ℤ := round (q * 1000)
  let m := n.natAbs
  (if n < 0 then "-" else "") ++ toString (m / 1000) ++ "." ++ pad3 (m % 1000)

/-- The point loop of `drawStroke`: at each segment start close the
previous polyline (when one is open), open a new one with the segment's
style, and repeat the previous point; every point appends its scaled
coordinates. -/
def drawStrokeLoop (pen : PenModel) (indent : String) :
    List Point → Nat → ℚ → ℚ → ℚ → String
  | [], _, _, _, _ => ""
  | point :: rest, i, lastXPos, lastYPos, lastSegmentWidth =>
      let xPos := decodeF32 point.x
      let yPos := decodeF32 point.y
      if i % pen.segmentLength == 0 then
        let closePrev := if lastXPos ≠ -1 then "\"/>\n" else ""
        let segmentColor := getSegmentColor pen point lastSegmentWidth
        let segmentWidth := getSegmentWidth pen point lastSegmentWidth
        let segmentOpacity := getSegmentOpacity pen point lastSegmentWidth
        let openTag := indent ++ "<polyline " ++ "style=\"fill:none; stroke:"
          ++ segmentColor ++ "; stroke-width:" ++ fmt3 (scaleQ segmentWidth)
          ++ "; opacity:" ++ fmt3 segmentOpacity ++ "\" "
          ++ "stroke-linecap=\"" ++ pen.strokeLinecap ++ "\" " ++ "points=\""
        let prevPoint :=
          if lastXPos ≠ -1 then fmt3 (scaleQ lastXPos) ++ "," ++ fmt3 (scaleQ lastYPos) ++ " "
          else ""
        closePrev ++ openTag ++ prevPoint
          ++ fmt3 (scaleQ xPos) ++ "," ++ fmt3 (scaleQ yPos) ++ " "
          ++ drawStrokeLoop pen indent rest (i + 1) xPos yPos segmentWidth
      else
        fmt3 (scaleQ xPos) ++ "," ++ fmt3 (scaleQ yPos) ++ " "
          ++ drawStrokeLoop pen indent rest (i + 1) xPos yPos lastSegmentWidth

/-- `drawStroke`: run the loop starting from the `-1` sentinels and
always append the closing fragment. -/
def drawStroke (line : Line) (indent : String) : String :=
  let pen := createPen line.tool line.color line.colorOverride
    (decodeF64 line.thicknessScale)
  drawStrokeLoop pen indent line.points 0 (-1) (-1) 0 ++ "\" />\n"

/-! ## Bounded sub-reader `Skip` (`LimitedBufReader`)

Two variants exist in the sources: the `parser`-package one reads the
remaining bytes through a fixed 8 KiB scratch buffer, the older
`rmscene`-package one allocates a single buffer of the full remaining
size.  Both are modelled as functions from (remaining, underlying
bytes) to the sizes of the reads they issue plus the final state. -/

/-- Outcome of a `Skip` call: the sizes of the buffer reads it issued
(each bounded by the scratch buffer size), whether it succeeded, and the
final remaining counter and underlying bytes. -/
structure SkipOutcome where
  chunks : List Nat
  failed : Bool
  remaining : Nat
  rest : List Nat
deriving Repr, DecidableEq

/-- The `rmscene` `LimitedBufReader.Skip`: one `make([]byte, remaining)`
allocation and one `io.ReadFull` of the whole remaining amount. -/
def rmsceneSkip (remaining : Nat) (avail : List Nat) : SkipOutcome :=
  if remaining = 0 then { chunks := [], failed := false, remaining := remaining, rest := avail }
  else if remaining ≤ avail.length then
    { chunks := [remaining], failed := false, remaining := 0, rest := avail.drop remaining }
  else
    { chunks := [remaining], failed := true, remaining := remaining, rest := [] }

/-- The `parser`-package `LimitedBufReader.Skip`: an 8192-byte scratch
buffer and a loop of `io.ReadFull` reads of `min(remaining, 8192)`
bytes; a short read consumes what was available, decrements `remaining`
by it and fails. -/
def parserSkip (remaining : Nat) (avail : List Nat) : SkipOutcome :=
  if _h : remaining = 0 then
    { chunks := [], failed := false, remaining := remaining, rest := avail }
  else
    -- readSize := remaining, capped at the 8192-byte chunk size
    let readSize := min remaining 8192
    if readSize ≤ avail.length then
      let out := parserSkip (remaining - readSize) (avail.drop readSize)
      { out with chunks := readSize :: out.chunks }
    else
      { chunks := [readSize], failed := true,
        remaining := remaining - avail.length, rest := [] }
termination_by remaining
decreasing_by
  omega

/-! ## Well-framed inputs

Encoders used to state the universal claims about the block loop: a
block is framed as a little-endian `uint32` payload length, four header
bytes (reserved, min version, current version, block type) and the
payload itself. -/

/-- A block of a well-framed input. -/
structure Block where
  unknown : Nat
  minVersion : Nat
  currentVersion : Nat
  blockType : Nat
  payload : List Nat
deriving Repr, DecidableEq

/-- Little-endian `uint32` encoding. -/
def u32le (n : Nat) : List Nat :=
  [n % 256, n / 256 % 256, n / 2 ^ 16 % 256, n / 2 ^ 24 % 256]

/-- Frame one block. -/
def encodeBlock (b : Block) : List Nat :=
  u32le b.payload.length ++
    [b.unknown, b.minVersion, b.currentVersion, b.blockType] ++ b.payload

/-- Frame a block sequence. -/
def encodeBlocks (bs : List Block) : List Nat := (bs.map encodeBlock).flatten

/-- A whole well-framed file: header then blocks. -/
def encodeInput (bs : List Block) : List Nat := headerV6 ++ encodeBlocks bs

/-- Varuint encoding, structurally recursive on a fuel bound so that
concrete encodings reduce definitionally. -/
def encVarUintAux : Nat → Nat → List Nat
  | 0, _ => []
  | fuel + 1, n => if n < 128 then [n] else (n % 128 + 128) :: encVarUintAux fuel (n / 128)

/-- Varuint encoding (7-bit groups, little-endian, MSB continuation). -/
def encVarUint (n : Nat) : List Nat := encVarUintAux (n + 1) n

/-- The bytes of a tag `(index, tagType)`. -/
def tagBytes (index tagType : Nat) : List Nat := encVarUint (index * 16 + tagType)

/-! ## Concrete inputs used by the claim theorems -/

/-- A TreeNode (0x02) payload for node `(0, 2)` with label `"A"`,
visible `true`, followed by a complete anchor sub-block chain at
indices 7–10. -/
def c4Payload : List Nat :=
  tagBytes 1 0xF ++ [0, 2] ++
  tagBytes 2 0xC ++ u32le 0 ++ tagBytes 1 0xF ++ [0, 0] ++
    tagBytes 2 0xC ++ u32le 0 ++ [1, 1, 65] ++
  tagBytes 3 0xC ++ u32le 0 ++ tagBytes 1 0xF ++ [0, 0] ++
    tagBytes 2 0x1 ++ [1] ++
  tagBytes 7 0xC ++ u32le 14 ++ tagBytes 1 0xF ++ [0, 5] ++
    tagBytes 2 0xF ++ [0, 9] ++
  tagBytes 8 0xC ++ u32le 9 ++ tagBytes 1 0xF ++ [0, 0] ++
    tagBytes 2 0x1 ++ [2] ++
  tagBytes 9 0xC ++ u32le 12 ++ tagBytes 1 0xF ++ [0, 0] ++
    tagBytes 2 0x4 ++ [0, 0, 0, 0] ++
  tagBytes 10 0xC ++ u32le 12 ++ tagBytes 1 0xF ++ [0, 0] ++
    tagBytes 2 0x4 ++ [0, 0, 64, 66]

/-- A TreeNode (0x02) payload for node `(0, 2)` with empty label and
visible `true`, no anchor data. -/
def c1PayloadA : List Nat :=
  tagBytes 1 0xF ++ [0, 2] ++
  tagBytes 2 0xC ++ u32le 0 ++ tagBytes 1 0xF ++ [0, 0] ++
    tagBytes 2 0xC ++ u32le 0 ++ [0, 1] ++
  tagBytes 3 0xC ++ u32le 0 ++ tagBytes 1 0xF ++ [0, 0] ++
    tagBytes 2 0x1 ++ [1]

/-- A TreeNode (0x02) payload for node `(0, 2)` with label `"B"`
(timestamp `(0, 7)`), visible `true`, and an anchor sub-block at index 7
whose contents are corrupt (the inner timestamp tag has index 5), so the
per-block processing errors after the label and visibility were already
stored. -/
def c1PayloadB : List Nat :=
  tagBytes 1 0xF ++ [0, 2] ++
  tagBytes 2 0xC ++ u32le 0 ++ tagBytes 1 0xF ++ [0, 7] ++
    tagBytes 2 0xC ++ u32le 0 ++ [1, 1, 66] ++
  tagBytes 3 0xC ++ u32le 0 ++ tagBytes 1 0xF ++ [0, 0] ++
    tagBytes 2 0x1 ++ [1] ++
  tagBytes 7 0xC ++ u32le 6 ++ [0x5F, 0, 1, 2, 3, 4]

/-- The two TreeNode blocks of the C1 counterexample. -/
def c1BlockA : Block :=
  { unknown := 0, minVersion := 1, currentVersion := 1, blockType := 0x02,
    payload := c1PayloadA }

/-- The erroring TreeNode block of the C1 counterexample. -/
def c1BlockB : Block :=
  { unknown := 0, minVersion := 1, currentVersion := 1, blockType := 0x02,
    payload := c1PayloadB }

/-- A RootText (0x07) payload holding one item `(1, 10) ↦ "AB"` and two
format entries for the same character id `(1, 10)`: first Heading (2)
with timestamp `(0, 5)`, then Bold (3) with the lower timestamp
`(0, 3)`. -/
def c2Payload : List Nat :=
  tagBytes 1 0xF ++ [0, 0] ++
  tagBytes 2 0xC ++ u32le 0 ++
  tagBytes 1 0xC ++ u32le 0 ++
  tagBytes 1 0xC ++ u32le 0 ++
  [1] ++
  tagBytes 0 0xC ++ u32le 0 ++
    tagBytes 2 0xF ++ [1, 10] ++
    tagBytes 3 0xF ++ [0, 0] ++
    tagBytes 4 0xF ++ [0, 0] ++
    tagBytes 5 0x4 ++ u32le 0 ++
    tagBytes 6 0xC ++ u32le 0 ++ [2, 1, 65, 66] ++
  tagBytes 2 0xC ++ u32le 0 ++
  tagBytes 1 0xC ++ u32le 0 ++
  [2] ++
  [1, 10] ++ tagBytes 1 0xF ++ [0, 5] ++ tagBytes 2 0xC ++ u32le 0 ++ [17, 2] ++
  [1, 10] ++ tagBytes 1 0xF ++ [0, 3] ++ tagBytes 2 0xC ++ u32le 0 ++ [17, 3] ++
  tagBytes 3 0xC ++ u32le 0 ++ List.replicate 16 0 ++
  tagBytes 4 0x4 ++ [0, 0, 0, 0]

/-- A version-2 line body: Fineliner, colour id 9, one compact point,
the discarded timestamp, no move id, and six trailing bytes carrying a
BGRA colour override (RGBA `(179, 62, 57, 255)`, the palette's Red). -/
def c5Payload : List Nat :=
  tagBytes 1 0x4 ++ u32le 4 ++
  tagBytes 2 0x4 ++ u32le 9 ++
  tagBytes 3 0x8 ++ List.replicate 8 0 ++
  tagBytes 4 0x4 ++ [0, 0, 0, 0] ++
  tagBytes 5 0xC ++ u32le 14 ++
    [0, 0, 0, 0, 0, 0, 0, 0, 0, 0, 40, 0, 0, 255] ++
  tagBytes 6 0xF ++ [0, 1] ++
  [0, 0] ++ [57, 62, 179, 255]

/-- An input whose single block declares a payload length of 100 but is
followed by no payload bytes at all. -/
def c6Input : List Nat := headerV6 ++ u32le 100 ++ [0, 1, 1, 0x01]

/-! ## Helper accessors for stating concrete facts -/

/-- Whether a per-block computation succeeded. -/
def pResOk {α : Type} : PRes α → Bool
  | .ok _ _ => true
  | .err _ _ => false

/-- The scene tree after a per-block computation (errors keep their
partially mutated tree, as `ReadSceneTree` does when it swallows them). -/
def pResTree {α : Type} : PRes α → SceneTree
  | .ok _ s => s.tree
  | .err _ s => s.tree

/-- The unread payload after a per-block computation. -/
def pResPay {α : Type} : PRes α → List Nat
  | .ok _ s => s.pay
  | .err _ s => s.pay

/-- The leftover stream of a stream read (empty when it failed). -/
def dResRest {α : Type} : DRes α → List Nat
  | .ok _ rest => rest
  | .err _ rest => rest

/-! # Claim theorems -/

/-! ## C10: a zero-point stroke emits a dangling closing fragment -/

/-- Claim C10: for every line whose points array is empty, `drawStroke`
emits no `<polyline>` element yet still writes the closing fragment
`" />` followed by a newline — the output is exactly that dangling
five-character fragment, whatever the line's other fields and the
indent are. -/
theorem c10_drawStroke_empty_points (color : Nat) (co : Option RGBA) (tool : Nat)
    (ts sl : Nat) (mid : Option CrdtID) (ind : String) :
    drawStroke { color := color, colorOverride := co, tool := tool, points := [],
                 thicknessScale := ts, startingLength := sl, moveID := mid } ind
      = "\" />\n" := rfl

/-! ## C8: segment opacity bounds -/

/-- `clamp` clips into `[0, 1]`. -/
theorem clamp_bounds (v : ℚ) : 0 ≤ clamp v ∧ clamp v ≤ 1 := by
  unfold clamp
  split_ifs <;> constructor <;> linarith

set_option maxHeartbeats 2000000 in
/-- Every pen built by `createPen` has its base opacity in `[0, 1]`
(the switch only ever assigns 1, 0.7, 0.3, 0 or 0.1). -/
theorem createPen_baseOpacity_bounds (penType color : Nat) (co : Option RGBA) (t : ℚ) :
    0 ≤ (createPen penType color co t).baseOpacity ∧
      (createPen penType color co t).baseOpacity ≤ 1 := by
  unfold createPen
  dsimp only
  simp only [apply_ite PenModel.baseOpacity]
  split_ifs <;> norm_num

/-- Claim C8, counterexample: for the Pencil pen a point with pressure 0
and speed 0 gets segment opacity `clamp(0) - 0.1 = -1/10`, which is not
in `[0, 1]` — the claimed clamp happens *before* the `- 0.1`. -/
theorem c8_counterexample :
    getSegmentOpacity (createPen 1 0 none 1) ⟨0, 0, 0, 0, 0, 0⟩ 0 = -(1 / 10) ∧
      ¬ (0 ≤ getSegmentOpacity (createPen 1 0 none 1) ⟨0, 0, 0, 0, 0, 0⟩ 0) := by
  have hname : (createPen 1 0 none 1).name = "Pencil" := rfl
  constructor
  · simp only [getSegmentOpacity, hname]
    norm_num [clamp]
  · simp only [getSegmentOpacity, hname]
    norm_num [clamp]

/-- Claim C8, amended: for every tool, colour, thickness and point, the
segment opacity lies in `[-1/10, 1]`: the Pencil formula
`clamp(-0.1·s/35 + p) - 0.1` lies in `[-1/10, 9/10]` and every other
pen returns its base opacity, which lies in `[0, 1]`. -/
theorem c8_amended (penType color : Nat) (co : Option RGBA) (t : ℚ)
    (pt : Point) (lastWidth : ℚ) :
    -(1 / 10) ≤ getSegmentOpacity (createPen penType color co t) pt lastWidth ∧
      getSegmentOpacity (createPen penType color co t) pt lastWidth ≤ 1 := by
  have hbase := createPen_baseOpacity_bounds penType color co t
  unfold getSegmentOpacity
  split_ifs with h
  · have hc := clamp_bounds ((1 / 10 : ℚ) * -(((pt.speed : ℚ) / 4) / 35) + (pt.pressure : ℚ) / 255)
    constructor <;> linarith [hc.1, hc.2]
  · constructor <;> linarith [hbase.1, hbase.2]

/-! ## C5: the colour-override RGBA is not retained on the line -/

/-- Claim C5 (code bug): `readLine` on a version-2 line body with six
trailing override bytes decodes the BGRA quadruple — visible in the
colour id being rewritten from 9 to the mapped palette entry 7 — but the
returned `Line` has `colorOverride = none`: the Go composite literal
never sets the field, even though `parser/types.go` documents it as the
file's RGBA override and the SVG renderer consumes it. -/
theorem c5_colorOverride_dropped :
    readLine 2 c5Payload =
      .ok { color := 7, colorOverride := none, tool := 4,
            points := [{ x := 0, y := 0, speed := 0, direction := 0,
                         width := 40, pressure := 255 }],
            thicknessScale := 0, startingLength := 0, moveID := none } [] := by
  rfl

/-! ## C7: the bounded sub-reader's `Skip` -/

/-- Claim C7, counterexample: the `rmscene`-package
`LimitedBufReader.Skip` allocates a single scratch buffer of exactly the
remaining size — here 10000 bytes, larger than the 8 KiB bound the claim
asserts for every bounded sub-reader. -/
theorem c7_counterexample :
    rmsceneSkip 10000 (List.replicate 10000 0) =
      { chunks := [10000], failed := false, remaining := 0, rest := [] } ∧
      8192 < 10000 := by
  constructor
  · unfold rmsceneSkip
    rw [List.length_replicate, List.drop_replicate]
    norm_num
  · norm_num

/-- Claim C7, amended (the `parser`-package `Skip`): when the underlying
reader can supply the remaining amount, `Skip` succeeds, advances the
underlying reader by exactly the remaining count, leaves the remaining
counter at 0, and does so in reads of at most 8192 bytes each whose
sizes sum to the skipped amount. -/
theorem c7_amended (remaining : Nat) (avail : List Nat)
    (h : remaining ≤ avail.length) :
    (parserSkip remaining avail).failed = false ∧
    (parserSkip remaining avail).remaining = 0 ∧
    (parserSkip remaining avail).rest = avail.drop remaining ∧
    (parserSkip remaining avail).chunks.sum = remaining ∧
    ∀ c ∈ (parserSkip remaining avail).chunks, c ≤ 8192 := by
  induction remaining using Nat.strong_induction_on generalizing avail with
  | _ n ih =>
    rw [parserSkip]
    by_cases hn : n = 0
    · subst hn
      simp
    · simp only [dif_neg hn]
      have hrs : min n 8192 ≤ avail.length := le_trans (Nat.min_le_left _ _) h
      rw [if_pos hrs]
      have hlt : n - min n 8192 < n := by omega
      have hle : n - min n 8192 ≤ (avail.drop (min n 8192)).length := by
        rw [List.length_drop]
        omega
      obtain ⟨h1, h2, h3, h4, h5⟩ := ih (n - min n 8192) hlt (avail.drop (min n 8192)) hle
      refine ⟨h1, h2, ?_, ?_, ?_⟩
      · rw [h3, List.drop_drop]
        congr 1
        omega
      · simp only [List.sum_cons, h4]
        omega
      · intro c hc
        rcases List.mem_cons.mp hc with hc | hc
        · omega
        · exact h5 c hc

/-- Witness for the amended C7 claim at remaining 9000 over a
9000-byte stream: the skip succeeds and zeroes the remaining counter. -/
theorem c7_amended_witness :
    9000 ≤ (List.replicate 9000 (0 : Nat)).length ∧
      (parserSkip 9000 (List.replicate 9000 0)).remaining = 0 := by
  refine ⟨(List.length_replicate 9000 0).symm.le, ?_⟩
  exact (c7_amended 9000 (List.replicate 9000 0)
    (List.length_replicate 9000 0).symm.le).2.1

/-! ## C9: `ReadVarUint` -/

/-- The mathematical value of a varuint byte sequence: 7-bit groups in
little-endian order. -/
def varGroupsVal : List Nat → Nat
  | [] => 0
  | b :: rest => (b &&& 0x7F) + 128 * varGroupsVal rest

/-- A byte below 128 has a clear continuation bit. -/
theorem and128_of_lt {n : Nat} (h : n < 128) : n &&& 128 = 0 := by
  rw [show (128 : Nat) = 2 ^ 7 by norm_num, Nat.and_two_pow,
    Nat.testBit_lt_two_pow (by omega : n < 2 ^ 7)]
  rfl

/-- A byte in `[128, 256)` has a set continuation bit. -/
theorem and128_of_ge {n : Nat} (h1 : 128 ≤ n) (h2 : n < 256) : n &&& 128 = 128 := by
  have h7 : n.testBit 7 = true := by
    rw [Nat.testBit_to_div_mod]
    have hd : n / 2 ^ 7 = 1 := by norm_num; omega
    rw [hd]
    rfl
  rw [show (128 : Nat) = 2 ^ 7 by norm_num, Nat.and_two_pow, h7]
  norm_num

/-- Oring a truncated shifted group into an accumulator that only
occupies the bits below the shift is the same as adding it modulo
`2 ^ 64`: the contribution occupies disjoint higher bits. -/
theorem lor_contrib (res g shift : Nat) (h1 : res < 2 ^ shift) (h2 : res < 2 ^ 64) :
    res ||| (g * 2 ^ shift % 2 ^ 64) = (res + g * 2 ^ shift) % 2 ^ 64 := by
  rcases le_or_lt 64 shift with hs | hs
  · obtain ⟨c, hc⟩ := Dvd.dvd.mul_left (pow_dvd_pow 2 hs) g
    rw [hc, Nat.mul_mod_right, Nat.or_zero, Nat.add_mul_mod_self_left,
      Nat.mod_eq_of_lt h2]
  · have hdvd2 : (2 : Nat) ^ shift ∣ 2 ^ 64 := pow_dvd_pow 2 hs.le
    obtain ⟨c, hc⟩ := (Nat.dvd_mod_iff hdvd2).mpr (dvd_mul_left (2 ^ shift) g)
    have hlt : g * 2 ^ shift % 2 ^ 64 < 2 ^ 64 := Nat.mod_lt _ (by positivity)
    rw [hc] at hlt
    have e1 : (2 : Nat) ^ 64 = 2 ^ shift * 2 ^ (64 - shift) := by
      rw [← pow_add]
      congr 1
      omega
    have hclt : c < 2 ^ (64 - shift) := by
      by_contra hle
      push_neg at hle
      have hmul : 2 ^ shift * 2 ^ (64 - shift) ≤ 2 ^ shift * c :=
        Nat.mul_le_mul_left _ hle
      rw [← e1] at hmul
      omega
    have hcb : 2 ^ shift * c ≤ 2 ^ 64 - 2 ^ shift := by
      have hpred : (2 : Nat) ^ (64 - shift) - 1 = (2 ^ (64 - shift)).pred := rfl
      have step : 2 ^ shift * c ≤ 2 ^ shift * ((2 : Nat) ^ (64 - shift) - 1) :=
        Nat.mul_le_mul_left _ (by omega)
      rw [hpred, Nat.mul_pred, ← e1] at step
      exact step
    have hsum : res + 2 ^ shift * c < 2 ^ 64 := by
      have hpow : (0 : Nat) < 2 ^ shift := by positivity
      omega
    rw [hc, Nat.lor_comm, ← Nat.mul_add_lt_is_or h1 c,
      Nat.add_mod res (g * 2 ^ shift), Nat.mod_eq_of_lt h2, hc,
      Nat.mod_eq_of_lt (by omega : res + 2 ^ shift * c < 2 ^ 64),
      Nat.add_comm]

/-- The accumulator loop of `ReadVarUint`: continuation bytes fold their
low seven bits in at the current shift (truncated to 64 bits), and the
first clear-MSB byte ends the number. -/
theorem readVarUintAux_ok (pre : List Nat) (last : Nat) (rest : List Nat)
    (hpre : ∀ b ∈ pre, 128 ≤ b ∧ b < 256) (hlast : last < 128) :
    ∀ res shift : Nat, res < 2 ^ shift → res < 2 ^ 64 →
    DataStream.readVarUintAux (pre ++ last :: rest) res shift =
      .ok ((res + varGroupsVal (pre ++ [last]) * 2 ^ shift) % 2 ^ 64) rest := by
  induction pre with
  | nil =>
      intro res shift h1 h2
      have hA : last &&& 127 = last := by
        have h3 := Nat.and_pow_two_sub_one_eq_mod last 7
        norm_num at h3
        omega
      have hstop : (last &&& 128 == 0) = true := by
        rw [and128_of_lt hlast]
        rfl
      simp only [List.nil_append, DataStream.readVarUintAux, Nat.shiftLeft_eq,
        hstop, eq_self_iff_true, if_true]
      rw [lor_contrib res (last &&& 127) shift h1 h2, hA]
      simp [varGroupsVal, hA]
  | cons b pre ih =>
      intro res shift h1 h2
      obtain ⟨hb1, hb2⟩ := hpre b (List.mem_cons_self b pre)
      have hcont : (b &&& 128 == 0) = false := by
        rw [and128_of_ge hb1 hb2]
        rfl
      simp only [List.cons_append, DataStream.readVarUintAux, Nat.shiftLeft_eq, hcont,
        Bool.false_eq_true, if_false, List.append_eq]
      rw [lor_contrib res (b &&& 127) shift h1 h2]
      have hg : b &&& 127 ≤ 127 := Nat.and_le_right
      have hlt64 : (res + (b &&& 127) * 2 ^ shift) % 2 ^ 64 < 2 ^ 64 :=
        Nat.mod_lt _ (by positivity)
      have hltsh : (res + (b &&& 127) * 2 ^ shift) % 2 ^ 64 < 2 ^ (shift + 7) := by
        rcases le_or_lt 64 (shift + 7) with hc | hc
        · exact lt_of_lt_of_le hlt64 (Nat.pow_le_pow_right (by norm_num) hc)
        · have hbound : res + (b &&& 127) * 2 ^ shift < 2 ^ (shift + 7) := by
            have : (b &&& 127) * 2 ^ shift ≤ 127 * 2 ^ shift :=
              Nat.mul_le_mul_right _ hg
            have hp : 2 ^ (shift + 7) = 2 ^ shift * 128 := by
              rw [pow_add]
              norm_num
            omega
          rw [Nat.mod_eq_of_lt (lt_trans hbound (Nat.pow_lt_pow_right (by norm_num) hc))]
          exact hbound
      rw [ih (fun x hx => hpre x (List.mem_cons_of_mem b hx)) _ _ hltsh hlt64]
      congr 1
      rw [Nat.mod_add_mod]
      have hexp : (2 : Nat) ^ (shift + 7) = 2 ^ shift * 128 := by
        rw [pow_add]
        norm_num
      simp only [varGroupsVal]
      congr 1
      rw [hexp]
      ring

/-- Claim C9: on a well-formed varuint (zero or more continuation bytes
with the MSB set, ended by one byte with the MSB clear), `ReadVarUint`
consumes exactly those bytes, leaving the rest of the stream, and
returns the encoded value reduced modulo `2 ^ 64`; over-long encodings
do not error, the high bits are silently discarded. -/
theorem c9_readVarUint (pre : List Nat) (last : Nat) (rest : List Nat)
    (hpre : ∀ b ∈ pre, 128 ≤ b ∧ b < 256) (hlast : last < 128) :
    DataStream.readVarUint (pre ++ last :: rest) =
      .ok (varGroupsVal (pre ++ [last]) % 2 ^ 64) rest := by
  have h := readVarUintAux_ok pre last rest hpre hlast 0 0 (by norm_num) (by norm_num)
  simpa [DataStream.readVarUint] using h

/-- Witness for C9 on an over-long eleven-byte encoding whose value
exceeds 64 bits: the parse succeeds and silently truncates. -/
theorem c9_readVarUint_witness :
    (∀ b ∈ List.replicate 10 129, 128 ≤ b ∧ b < 256) ∧
      DataStream.readVarUint (List.replicate 10 129 ++ 3 :: [7]) =
        .ok (varGroupsVal (List.replicate 10 129 ++ [3]) % 2 ^ 64) [7] :=
  ⟨by decide, c9_readVarUint (List.replicate 10 129) 3 [7] (by decide) (by decide)⟩

/-! ## C2: duplicate style entries — last in file order wins -/

/-- Claim C2, counterexample: a root-text block with two format entries
for character `(1, 10)` — first Heading (2) at timestamp `(0, 5)`, then
Bold (3) at the *lower* timestamp `(0, 3)` — parses successfully, stores
the later-filed lower-timestamp entry (`styles[(1,10)] = ⟨(0,3), 3⟩`)
and styles the paragraph Bold, not the claimed higher-timestamp
Heading. -/
theorem c2_counterexample :
    pResOk (readRootTextBlock ⟨c2Payload, NewSceneTree⟩) = true ∧
    (pResTree (readRootTextBlock ⟨c2Payload, NewSceneTree⟩)).rootText.map
        (fun tx => lookupA tx.styles ⟨1, 10⟩) = some (some ⟨⟨0, 3⟩, 3⟩) ∧
    (BuildTextDocument
        (pResTree (readRootTextBlock ⟨c2Payload, NewSceneTree⟩)).rootText).paragraphs.map
        Paragraph.style = [3] ∧
    (⟨⟨0, 3⟩, 3⟩ : LwwValue Nat) ≠ ⟨⟨0, 5⟩, 2⟩ := by
  refine ⟨rfl, rfl, rfl, by decide⟩

/-- Looking up the key just stored always finds the stored value. -/
theorem lookupA_upsertA {V : Type} (m : List (CrdtID × V)) (k : CrdtID) (v : V) :
    lookupA (upsertA m k v) k = some v := by
  induction m with
  | nil => simp [upsertA, lookupA]
  | cons p m ih =>
      obtain ⟨kk, vv⟩ := p
      by_cases h : kk = k
      · simp [upsertA, lookupA, h]
      · simp [upsertA, lookupA, h, ih]

/-- Applying a stream bind to a concrete payload splits on the first read. -/
theorem dstBindApply {α β : Type} (x : DSt α) (f : α → DSt β) (pay : List Nat) :
    (x >>= f) pay = match x pay with
      | .ok a p => f a p
      | .err e p => .err e p := rfl

/-- One step of the format loop, with the stream read exposed. -/
theorem readFormatsLoop_succ (n : Nat) (styles : List (CrdtID × LwwValue Nat))
    (pay : List Nat) :
    readFormatsLoop (n + 1) styles pay =
      match readTextFormat pay with
      | .ok (charID, style) pay' => readFormatsLoop n (upsertA styles charID style) pay'
      | .err e pay' => .err e pay' := by
  rw [readFormatsLoop, dstBindApply]
  cases h : readTextFormat pay with
  | ok a pay' =>
      obtain ⟨c, s⟩ := a
      rfl
  | err e pay' => rfl

/-- Claim C2, amended: when two format entries for the same character
id are read in sequence, the styles map keeps the value of the entry
that appears *later in the file*, whatever the two entries'
timestamps are — `styles[charID] = style` is a plain overwrite, so last
in file order wins, and `BuildTextDocument` then applies that stored
value to the owning paragraph. -/
theorem c2_amended (cA cB rest : List Nat) (id : CrdtID) (s1 s2 : LwwValue Nat)
    (styles0 : List (CrdtID × LwwValue Nat))
    (hA : readTextFormat (cA ++ (cB ++ rest)) = .ok (id, s1) (cB ++ rest))
    (hB : readTextFormat (cB ++ rest) = .ok (id, s2) rest) :
    readFormatsLoop 2 styles0 (cA ++ (cB ++ rest)) =
        .ok (upsertA (upsertA styles0 id s1) id s2) rest ∧
      lookupA (upsertA (upsertA styles0 id s1) id s2) id = some s2 := by
  constructor
  · rw [show (2 : Nat) = 1 + 1 from rfl, readFormatsLoop_succ, hA]
    dsimp only
    rw [show (1 : Nat) = 0 + 1 from rfl, readFormatsLoop_succ, hB]
    rfl
  · exact lookupA_upsertA _ id s2

/-- The higher-timestamp Heading entry of the C2 scenario. -/
def c2EntryA : List Nat :=
  [1, 10] ++ tagBytes 1 0xF ++ [0, 5] ++ tagBytes 2 0xC ++ u32le 0 ++ [17, 2]

/-- The later-filed, lower-timestamp Bold entry of the C2 scenario. -/
def c2EntryB : List Nat :=
  [1, 10] ++ tagBytes 1 0xF ++ [0, 3] ++ tagBytes 2 0xC ++ u32le 0 ++ [17, 3]

/-- Witness for the amended C2 claim: the two concrete entries decode
as assumed and the stored style is the later-filed one. -/
theorem c2_amended_witness :
    readTextFormat (c2EntryA ++ (c2EntryB ++ [])) =
        .ok (⟨1, 10⟩, (⟨⟨0, 5⟩, 2⟩ : LwwValue Nat)) (c2EntryB ++ []) ∧
      lookupA (upsertA (upsertA [] ⟨1, 10⟩ (⟨⟨0, 5⟩, 2⟩ : LwwValue Nat)) ⟨1, 10⟩
          (⟨⟨0, 3⟩, 3⟩ : LwwValue Nat)) ⟨1, 10⟩ = some ⟨⟨0, 3⟩, 3⟩ :=
  ⟨rfl, (c2_amended c2EntryA c2EntryB [] ⟨1, 10⟩ ⟨⟨0, 5⟩, 2⟩ ⟨⟨0, 3⟩, 3⟩ []
    rfl rfl).2⟩

/-! ## C4: the anchor is only read for already-existing groups -/

/-- Claim C4, counterexample: a TreeNode block whose payload carries a
sub-block at index 7 (the look-ahead on the unread payload confirms it),
processed on a tree where node `(0, 2)` does not exist, creates the
group but leaves all four anchor fields unset — the early return for a
newly created node never reads the anchor data. -/
theorem c4_counterexample :
    pResOk (readTreeNodeBlock ⟨c4Payload, NewSceneTree⟩) = true ∧
    Tagged.checkSubblockTag (pResPay (readTreeNodeBlock ⟨c4Payload, NewSceneTree⟩)) 7
      = true ∧
    lookupA NewSceneTree.nodes ⟨0, 2⟩ = none ∧
    (lookupA (pResTree (readTreeNodeBlock ⟨c4Payload, NewSceneTree⟩)).nodes ⟨0, 2⟩).map
        (fun g => (g.anchorID, g.anchorType, g.anchorThreshold, g.anchorOriginX))
      = some (none, none, none, none) :=
  ⟨rfl, rfl, rfl, rfl⟩

/-- Applying a per-block bind to a concrete state splits on the first step. -/
theorem pstBindApply {α β : Type} (x : PSt α) (f : α → PSt β) (s : BState) :
    (x >>= f) s = match x s with
      | .ok a s' => f a s'
      | .err e s' => .err e s' := rfl

/-- A per-block bind whose first step succeeds continues from its state. -/
theorem pstBindOk {α β : Type} {x : PSt α} (f : α → PSt β) {s s' : BState} {a : α}
    (h : x s = .ok a s') : (x >>= f) s = f a s' := by
  rw [pstBindApply, h]

/-- A successful stream read lifts to the block state, leaving the tree alone. -/
theorem liftDOk {α : Type} {d : DSt α} {pay pay' : List Nat} (tree : SceneTree) {a : α}
    (h : d pay = .ok a pay') : liftD d ⟨pay, tree⟩ = .ok a ⟨pay', tree⟩ := by
  simp only [liftD, h]

/-- Updating twice under one key keeps only the second value. -/
theorem upsertA_upsertA {V : Type} (m : List (CrdtID × V)) (k : CrdtID) (a b : V) :
    upsertA (upsertA m k a) k b = upsertA m k b := by
  induction m with
  | nil => simp [upsertA]
  | cons p m ih =>
      obtain ⟨kk, vv⟩ := p
      by_cases h : kk = k
      · simp [upsertA, h]
      · simp [upsertA, h, ih]

/-- Modifying a node that is present rewrites it through the update map. -/
theorem modifyNodeOk (nodeID : CrdtID) (f : Group → Group) (pay : List Nat)
    (t : SceneTree) (g : Group) (hg : lookupA t.nodes nodeID = some g) :
    modifyNode nodeID f ⟨pay, t⟩ =
      .ok () ⟨pay, { t with nodes := upsertA t.nodes nodeID (f g) }⟩ := by
  rw [modifyNode]
  rw [pstBindOk _ (show getNode nodeID ⟨pay, t⟩ = .ok (some g) ⟨pay, t⟩ by
    simp only [getNode, hg])]
  rfl

/-- Claim C4, amended: for a TreeNode block whose reads all succeed and
whose node *already exists* in the tree, when the payload left after the
label and visibility carries a sub-block at index 7, the four LWW values
read at indices 7–10 land in the group's `anchorID`, `anchorType`,
`anchorThreshold` and `anchorOriginX`; for a node created by the block
itself the early return skips the anchor data (see the counterexample). -/
theorem c4_amended {p0 p1 p2 p3 p4 p5 p6 p7 : List Nat} {tree : SceneTree}
    {nodeID : CrdtID} {label : LwwValue (List Nat)} {visible : LwwValue Bool}
    {node : Group} {aID : LwwValue CrdtID} {aType aThr aOX : LwwValue Nat}
    (h1 : Tagged.readID 1 p0 = .ok nodeID p1)
    (h2 : Tagged.readLwwString 2 p1 = .ok label p2)
    (h3 : Tagged.readLwwBool 3 p2 = .ok visible p3)
    (hn : lookupA tree.nodes nodeID = some node)
    (h7 : Tagged.checkSubblockTag p3 7 = true)
    (h4 : Tagged.readLwwID 7 p3 = .ok aID p4)
    (h5 : Tagged.readLwwByte 8 p4 = .ok aType p5)
    (h6 : Tagged.readLwwFloat 9 p5 = .ok aThr p6)
    (h8 : Tagged.readLwwFloat 10 p6 = .ok aOX p7) :
    readTreeNodeBlock ⟨p0, tree⟩ =
      .ok () ⟨p7, { tree with
        nodes := upsertA tree.nodes nodeID { node with
          label := label, visible := visible,
          anchorID := some aID, anchorType := some aType,
          anchorThreshold := some aThr, anchorOriginX := some aOX } }⟩ := by
  rw [readTreeNodeBlock]
  rw [pstBindOk _ (liftDOk tree h1)]
  rw [pstBindOk _ (liftDOk tree h2)]
  rw [pstBindOk _ (liftDOk tree h3)]
  rw [pstBindOk _ (show getNode nodeID ⟨p3, tree⟩ = .ok (some node) ⟨p3, tree⟩ by
    simp only [getNode, hn])]
  dsimp only
  have hset : setNode nodeID { node with label := label, visible := visible } ⟨p3, tree⟩
      = .ok () ⟨p3, { tree with
        nodes := upsertA tree.nodes nodeID
          { node with label := label, visible := visible } }⟩ := rfl
  rw [pstBindOk _ hset]
  rw [pstBindOk _ (liftDOk _ (show Tagged.hasSubblock 7 p3 = .ok true p3 by
    simp only [Tagged.hasSubblock, h7]))]
  rw [if_pos rfl]
  rw [pstBindOk _ (liftDOk _ h4)]
  rw [pstBindOk _ (modifyNodeOk nodeID _ p4 _ _ (lookupA_upsertA _ _ _))]
  rw [pstBindOk _ (liftDOk _ h5)]
  rw [pstBindOk _ (modifyNodeOk nodeID _ p5 _ _ (lookupA_upsertA _ _ _))]
  rw [pstBindOk _ (liftDOk _ h6)]
  rw [pstBindOk _ (modifyNodeOk nodeID _ p6 _ _ (lookupA_upsertA _ _ _))]
  rw [pstBindOk _ (liftDOk _ h8)]
  rw [modifyNodeOk nodeID _ p7 _ _ (lookupA_upsertA _ _ _)]
  simp only [upsertA_upsertA]

/-- The pre-existing node `(0, 2)` of the C4 witness scenario. -/
def c4Node0 : Group := NewEmptyGroup ⟨0, 2⟩

/-- A tree already holding node `(0, 2)`, for the C4 witness. -/
def c4Tree0 : SceneTree := { nodes := [(⟨0, 2⟩, c4Node0)], rootText := none }

/-- Payload left after the node id of `c4Payload`. -/
def c4P1 : List Nat := dResRest (Tagged.readID 1 c4Payload)
/-- Payload left after the label of `c4Payload`. -/
def c4P2 : List Nat := dResRest (Tagged.readLwwString 2 c4P1)
/-- Payload left after the visibility of `c4Payload`. -/
def c4P3 : List Nat := dResRest (Tagged.readLwwBool 3 c4P2)
/-- Payload left after the anchor id of `c4Payload`. -/
def c4P4 : List Nat := dResRest (Tagged.readLwwID 7 c4P3)
/-- Payload left after the anchor type of `c4Payload`. -/
def c4P5 : List Nat := dResRest (Tagged.readLwwByte 8 c4P4)
/-- Payload left after the anchor threshold of `c4Payload`. -/
def c4P6 : List Nat := dResRest (Tagged.readLwwFloat 9 c4P5)
/-- Payload left after the anchor origin of `c4Payload`. -/
def c4P7 : List Nat := dResRest (Tagged.readLwwFloat 10 c4P6)

/-- Witness for the amended C4 claim: on `c4Payload` against a tree that
already holds node `(0, 2)`, the block succeeds and stores all four
anchor values (the origin-x float32 bits are `0x42400000`). -/
theorem c4_amended_witness :
    readTreeNodeBlock ⟨c4Payload, c4Tree0⟩ =
      .ok () ⟨c4P7, { c4Tree0 with
        nodes := upsertA c4Tree0.nodes ⟨0, 2⟩ { c4Node0 with
          label := ⟨⟨0, 0⟩, [65]⟩, visible := ⟨⟨0, 0⟩, true⟩,
          anchorID := some ⟨⟨0, 5⟩, ⟨0, 9⟩⟩, anchorType := some ⟨⟨0, 0⟩, 2⟩,
          anchorThreshold := some ⟨⟨0, 0⟩, 0⟩,
          anchorOriginX := some ⟨⟨0, 0⟩, 1111490560⟩ } }⟩ :=
  c4_amended rfl rfl rfl rfl rfl rfl rfl rfl rfl

/-! ## The block loop on well-framed inputs (used by C1 and C6) -/

/-- Whether the whole parse succeeded. -/
def isOkE : Except String SceneTree → Bool
  | .ok _ => true
  | .error _ => false

instance : DecidableEq (Except String SceneTree) := fun x y =>
  match x, y with
  | .ok a, .ok b =>
      if h : a = b then isTrue (congrArg Except.ok h)
      else isFalse (fun hh => h (Except.ok.inj hh))
  | .error a, .error b =>
      if h : a = b then isTrue (congrArg Except.error h)
      else isFalse (fun hh => h (Except.error.inj hh))
  | .ok _, .error _ => isFalse (fun hh => Except.noConfusion hh)
  | .error _, .ok _ => isFalse (fun hh => Except.noConfusion hh)

/-- Run one framed block against the tree, per-block errors swallowed:
the action the loop performs for each well-framed block. -/
def applyBlockB (tree : SceneTree) (b : Block) : SceneTree :=
  applyBlock tree
    { size := b.payload.length, blockType := b.blockType,
      minVersion := b.minVersion, currentVersion := b.currentVersion } b.payload

/-- Little-endian decode inverts the `uint32` encoder below `2 ^ 32`. -/
theorem leVal_u32le (n : Nat) (h : n < 2 ^ 32) : DataStream.leVal (u32le n) = n := by
  simp [u32le, DataStream.leVal]
  omega

/-- A framed block is its payload plus the 8 header bytes. -/
theorem encodeBlock_length (b : Block) : (encodeBlock b).length = 8 + b.payload.length := by
  simp [encodeBlock, u32le]
  omega

/-- There are at least as many encoded bytes as blocks. -/
theorem length_le_encodeBlocks (bs : List Block) : bs.length ≤ (encodeBlocks bs).length := by
  induction bs with
  | nil => simp [encodeBlocks]
  | cons b bs ih =>
      have hb := encodeBlock_length b
      simp only [encodeBlocks, List.map_cons, List.flatten_cons, List.length_append,
        List.length_cons]
      simp only [encodeBlocks] at ih
      omega

/-- One iteration of the block loop over a well-framed block: the
header is read, the payload is bound and processed (errors swallowed),
and `EndBlock` resyncs exactly to the start of the rest. -/
theorem readBlocksLoop_step (fuel : Nat) (b : Block) (rest : List Nat) (tree : SceneTree)
    (hwf : b.payload.length < 2 ^ 32) :
    readBlocksLoop (fuel + 1) (encodeBlock b ++ rest) tree =
      readBlocksLoop fuel rest (applyBlockB tree b) := by
  have hempty : (encodeBlock b ++ rest).isEmpty = false := by
    simp [encodeBlock, u32le]
  have hlen : ¬ (encodeBlock b ++ rest).length < 8 := by
    rw [List.length_append, encodeBlock_length]
    omega
  have htake : (encodeBlock b ++ rest).take 4 = u32le b.payload.length := by
    simp [encodeBlock, u32le, List.take]
  have hdrop : (encodeBlock b ++ rest).drop 8 = b.payload ++ rest := by
    simp [encodeBlock, u32le, List.drop]
  have hg5 : (encodeBlock b ++ rest).getD 5 0 = b.minVersion := by
    simp [encodeBlock, u32le, List.getD]
  have hg6 : (encodeBlock b ++ rest).getD 6 0 = b.currentVersion := by
    simp [encodeBlock, u32le, List.getD]
  have hg7 : (encodeBlock b ++ rest).getD 7 0 = b.blockType := by
    simp [encodeBlock, u32le, List.getD]
  have htakeP : (b.payload ++ rest).take b.payload.length = b.payload :=
    List.take_left' rfl
  have hdropP : (b.payload ++ rest).drop b.payload.length = rest :=
    List.drop_left' rfl
  have hle : b.payload.length ≤ (b.payload ++ rest).length := by
    rw [List.length_append]
    omega
  rw [readBlocksLoop, if_neg (by rw [hempty]; exact Bool.false_ne_true), if_neg hlen,
    htake, leVal_u32le _ hwf, hg5, hg6, hg7, hdrop]
  dsimp only
  rw [htakeP, if_pos hle, hdropP]
  rfl

/-- Exhausting the input ends the loop cleanly with the tree built so
far, whatever positive fuel is left. -/
theorem readBlocksLoop_nil (fuel : Nat) (tree : SceneTree) (h : 1 ≤ fuel) :
    readBlocksLoop fuel [] tree = .ok tree := by
  obtain ⟨f, rfl⟩ : ∃ f, fuel = f + 1 := ⟨fuel - 1, by omega⟩
  rw [readBlocksLoop]
  rfl

/-- The loop over a well-framed prefix folds `applyBlockB` over the
blocks and continues on the suffix with the fuel it has not used. -/
theorem readBlocksLoop_blocks (bs : List Block) (suffix : List Nat) :
    ∀ (fuel : Nat) (tree : SceneTree),
    (∀ b ∈ bs, b.payload.length < 2 ^ 32) → bs.length ≤ fuel →
    readBlocksLoop fuel (encodeBlocks bs ++ suffix) tree =
      readBlocksLoop (fuel - bs.length) suffix (bs.foldl applyBlockB tree) := by
  induction bs with
  | nil =>
      intro fuel tree _ _
      simp [encodeBlocks]
  | cons b bs ih =>
      intro fuel tree hwf hfuel
      obtain ⟨f, rfl⟩ : ∃ f, fuel = f + 1 := ⟨fuel - 1, by simp at hfuel; omega⟩
      have henc : encodeBlocks (b :: bs) = encodeBlock b ++ encodeBlocks bs := by
        simp [encodeBlocks]
      rw [henc, List.append_assoc,
        readBlocksLoop_step f b (encodeBlocks bs ++ suffix) tree
          (hwf b (List.mem_cons_self b bs)),
        ih f (applyBlockB tree b) (fun x hx => hwf x (List.mem_cons_of_mem b hx))
          (by simp at hfuel; omega)]
      simp [Nat.succ_sub_succ]

/-- `ReadSceneTree` on a wholly well-framed input: the parse always
succeeds and produces the left fold of the per-block actions. -/
theorem ReadSceneTree_encodeInput (bs : List Block)
    (hwf : ∀ b ∈ bs, b.payload.length < 2 ^ 32) :
    ReadSceneTree (encodeInput bs) = .ok (bs.foldl applyBlockB NewSceneTree) := by
  have hhdr : headerV6.length = 43 := rfl
  have htake : (headerV6 ++ encodeBlocks bs).take 43 = headerV6 :=
    List.take_left' hhdr
  have hdrop : (headerV6 ++ encodeBlocks bs).drop 43 = encodeBlocks bs :=
    List.drop_left' hhdr
  have hlee := length_le_encodeBlocks bs
  rw [ReadSceneTree, encodeInput, if_pos htake, hdrop]
  have happ : encodeBlocks bs = encodeBlocks bs ++ [] := by simp
  rw [happ, readBlocksLoop_blocks bs [] _ NewSceneTree hwf
      (by simp only [List.append_nil]; rw [List.length_append, hhdr]; omega),
    readBlocksLoop_nil _ _
      (by simp only [List.append_nil]; rw [List.length_append, hhdr]; omega)]

/-! ## C1: robustness of the block loop -/

/-- A skipped or unknown block type leaves the scene tree untouched:
`processBlock` falls through to the skip branch. -/
theorem applyBlockB_skip (tree : SceneTree) (b : Block)
    (h1 : b.blockType ≠ 0x01) (h2 : b.blockType ≠ 0x02) (h4 : b.blockType ≠ 0x04)
    (h5 : b.blockType ≠ 0x05) (h7 : b.blockType ≠ 0x07) :
    applyBlockB tree b = tree := by
  unfold applyBlockB applyBlock processBlock
  rw [if_neg h1, if_neg h2, if_neg h4, if_neg h5, if_neg h7]

/-- Claim C1, amended: on a well-framed input `ReadSceneTree` always
succeeds (per-block errors are swallowed), and a block whose type is
unknown or skipped yields exactly the scene of the input without that
block.  (For a block whose *processing* errors after partial mutation
the "as if absent" half fails — see the counterexample.) -/
theorem c1_amended (bs₁ bs₂ : List Block) (b : Block)
    (hwf : ∀ x ∈ bs₁ ++ b :: bs₂, x.payload.length < 2 ^ 32)
    (h1 : b.blockType ≠ 0x01) (h2 : b.blockType ≠ 0x02) (h4 : b.blockType ≠ 0x04)
    (h5 : b.blockType ≠ 0x05) (h7 : b.blockType ≠ 0x07) :
    ReadSceneTree (encodeInput (bs₁ ++ b :: bs₂)) =
        .ok ((bs₁ ++ bs₂).foldl applyBlockB NewSceneTree) ∧
      ReadSceneTree (encodeInput (bs₁ ++ b :: bs₂)) =
        ReadSceneTree (encodeInput (bs₁ ++ bs₂)) := by
  have hwf2 : ∀ x ∈ bs₁ ++ bs₂, x.payload.length < 2 ^ 32 := by
    intro x hx
    apply hwf
    rcases List.mem_append.mp hx with h | h
    · exact List.mem_append.mpr (Or.inl h)
    · exact List.mem_append.mpr (Or.inr (List.mem_cons_of_mem b h))
  have e1 := ReadSceneTree_encodeInput (bs₁ ++ b :: bs₂) hwf
  have e2 := ReadSceneTree_encodeInput (bs₁ ++ bs₂) hwf2
  have efold : (bs₁ ++ b :: bs₂).foldl applyBlockB NewSceneTree =
      (bs₁ ++ bs₂).foldl applyBlockB NewSceneTree := by
    rw [List.foldl_append, List.foldl_append, List.foldl_cons,
      applyBlockB_skip _ b h1 h2 h4 h5 h7]
  exact ⟨by rw [e1, efold], by rw [e1, efold, ← e2]⟩

/-- The spec's example block: unknown type 0xFF, 37 payload bytes. -/
def cFFBlock : Block :=
  { unknown := 0, minVersion := 1, currentVersion := 1, blockType := 0xFF,
    payload := List.replicate 37 0 }

/-- Witness for the amended C1 claim: inserting the unknown 0xFF block
of length 37 after a TreeNode block changes nothing. -/
theorem c1_amended_witness :
    (∀ x ∈ [c1BlockA] ++ cFFBlock :: [], x.payload.length < 2 ^ 32) ∧
      ReadSceneTree (encodeInput ([c1BlockA] ++ cFFBlock :: [])) =
        ReadSceneTree (encodeInput ([c1BlockA] ++ [])) := by
  have hwf : ∀ x ∈ [c1BlockA] ++ cFFBlock :: [], x.payload.length < 2 ^ 32 := by
    decide
  exact ⟨hwf, (c1_amended [c1BlockA] [] cFFBlock hwf (by decide) (by decide)
    (by decide) (by decide) (by decide)).2⟩

/-- Claim C1, counterexample: a well-framed input of two TreeNode
blocks.  The second block's processing errors (corrupt anchor data),
the whole parse still succeeds — but the resulting tree is *not* the
tree of the input without that block, because the label and visibility
were stored before the error. -/
theorem c1_counterexample :
    pResOk (processBlock ⟨c1PayloadB.length, 0x02, 1, 1⟩
        ⟨c1PayloadB, applyBlockB NewSceneTree c1BlockA⟩) = false ∧
      isOkE (ReadSceneTree (encodeInput [c1BlockA, c1BlockB])) = true ∧
      isOkE (ReadSceneTree (encodeInput [c1BlockA])) = true ∧
      ReadSceneTree (encodeInput [c1BlockA, c1BlockB]) ≠
        ReadSceneTree (encodeInput [c1BlockA]) := by
  refine ⟨rfl, rfl, rfl, by decide⟩

/-! ## C6: a block length past end of input fails the whole parse -/

/-- One loop iteration over a block whose declared length exceeds the
remaining bytes: whatever the per-block processing does, the
`EndBlock` resync fails and the whole parse errors. -/
theorem readBlocksLoop_truncated (fuel : Nat) (u m c t L : Nat) (payload : List Nat)
    (hL : L < 2 ^ 32) (htrunc : payload.length < L) (tree : SceneTree) :
    readBlocksLoop (fuel + 1) (u32le L ++ ([u, m, c, t] ++ payload)) tree =
      .error "failed to end block" := by
  have h4 : (u32le L).length = 4 := by simp [u32le]
  have htake : (u32le L ++ ([u, m, c, t] ++ payload)).take 4 = u32le L :=
    List.take_left' h4
  have hdrop8 : (u32le L ++ ([u, m, c, t] ++ payload)).drop 8 = payload := by
    simp [u32le, List.drop]
  have hempty : (u32le L ++ ([u, m, c, t] ++ payload)).isEmpty = false := by
    simp [u32le]
  have hlen : ¬ (u32le L ++ ([u, m, c, t] ++ payload)).length < 8 := by
    simp [u32le]
  have hg5 : (u32le L ++ ([u, m, c, t] ++ payload)).getD 5 0 = m := by
    simp [u32le, List.getD]
  have hg6 : (u32le L ++ ([u, m, c, t] ++ payload)).getD 6 0 = c := by
    simp [u32le, List.getD]
  have hg7 : (u32le L ++ ([u, m, c, t] ++ payload)).getD 7 0 = t := by
    simp [u32le, List.getD]
  rw [readBlocksLoop, if_neg (by rw [hempty]; exact Bool.false_ne_true), if_neg hlen,
    htake, leVal_u32le L hL, hg5, hg6, hg7, hdrop8]
  dsimp only
  rw [if_neg (by omega : ¬ L ≤ payload.length)]

/-- Claim C6, amended: an input of well-framed blocks followed by a
block whose declared length exceeds the bytes that follow makes
`ReadSceneTree` fail as a whole with the end-of-block resync error —
it does not return the scene assembled from the preceding blocks (and,
the model being total, it terminates). -/
theorem c6_amended (bs : List Block) (u m c t L : Nat) (payload : List Nat)
    (hwf : ∀ x ∈ bs, x.payload.length < 2 ^ 32) (hL : L < 2 ^ 32)
    (htrunc : payload.length < L) :
    ReadSceneTree (headerV6 ++ (encodeBlocks bs ++ (u32le L ++ ([u, m, c, t] ++ payload))))
      = .error "failed to end block" := by
  have hhdr : headerV6.length = 43 := rfl
  have hlee := length_le_encodeBlocks bs
  rw [ReadSceneTree, if_pos (List.take_left' hhdr), List.drop_left' hhdr,
    readBlocksLoop_blocks bs _ _ NewSceneTree hwf
      (by rw [List.length_append, List.length_append, hhdr]; omega)]
  obtain ⟨f, hfe⟩ : ∃ f,
      (headerV6 ++ (encodeBlocks bs ++ (u32le L ++ ([u, m, c, t] ++ payload)))).length + 1
        - bs.length = f + 1 := by
    refine ⟨(headerV6 ++ (encodeBlocks bs ++ (u32le L ++ ([u, m, c, t] ++ payload)))).length
      - bs.length, ?_⟩
    rw [List.length_append, List.length_append, hhdr]
    omega
  rw [hfe, readBlocksLoop_truncated f u m c t L payload hL htrunc]

/-- Witness for the amended C6 claim on a concrete truncated input. -/
theorem c6_amended_witness :
    (100 : Nat) < 2 ^ 32 ∧
      ReadSceneTree (headerV6 ++ (encodeBlocks [] ++ (u32le 100 ++ ([0, 1, 1, 0x01] ++ []))))
        = .error "failed to end block" :=
  ⟨by norm_num, c6_amended [] 0 1 1 0x01 100 [] (by decide) (by norm_num) (by decide)⟩

/-- Claim C6, counterexample: the header followed by one block whose
declared length (100) exceeds the zero remaining bytes.  The per-block
processing does error (SceneTree block, empty payload), but instead of
returning the scene assembled so far, `ReadSceneTree` fails as a whole:
`EndBlock`'s resync cannot skip past the end of input. -/
theorem c6_counterexample :
    pResOk (processBlock ⟨100, 0x01, 1, 1⟩ ⟨[], NewSceneTree⟩) = false ∧
      ReadSceneTree c6Input = .error "failed to end block" :=
  ⟨rfl, rfl⟩

/-! ## C3: the paragraph-style owner id, against the spec's description

Spec-side definitions, modelled from the spec's words (§4.6): record,
per non-tombstone item, the concatenation offset where its first
character begins and its length; the owner of a character position is
the item whose offset range covers it, the owner id adds
`position - itemOffset` to the item's `itemId.part2`. -/

/-- Modelled from the spec: the kept (non-tombstone, string-valued)
items, each with its concatenation offset and its length. -/
def specKept : List TextItem → Nat → List (CrdtID × Nat × Nat)
  | [], _ => []
  | it :: rest, off =>
      if it.deletedLength > 0 then specKept rest off
      else
        match it.value with
        | none => specKept rest off
        | some s => (it.itemID, off, s.length) :: specKept rest (off + s.length)

/-- Modelled from the spec: the concatenation of the kept items'
strings, in sequence order. -/
def specFull : List TextItem → List Nat
  | [] => []
  | it :: rest =>
      if it.deletedLength > 0 then specFull rest
      else
        match it.value with
        | none => specFull rest
        | some s => s ++ specFull rest

/-- Modelled from the spec: the owner of a character position is the
item whose offset range `[offset, offset + length)` covers it, and the
owner id adds `position - offset` to the item id's `part2`. -/
def specOwner (pos : Nat) : List (CrdtID × Nat × Nat) → Option CrdtID
  | [] => none
  | (id, off, len) :: rest =>
      if off ≤ pos ∧ pos < off + len then some ⟨id.part1, id.part2 + (pos - off)⟩
      else specOwner pos rest

/-- Total length of the kept items. -/
def sumLens (ks : List (CrdtID × Nat × Nat)) : Nat :=
  (ks.map (fun e => e.2.2)).sum

/-- Character position where paragraph `i` of a line list begins
(each earlier line contributes its length plus its newline). -/
def paraStart (lines : List (List Nat)) (i : Nat) : Nat :=
  ((lines.take i).map (fun l => l.length + 1)).sum

/-- Modelled from the spec: the style-owning character id of paragraph
`i` — for `i = 0` the id of the first character of the first kept item,
for `i > 0` the id of the newline that terminated paragraph `i - 1`. -/
def c3OwnerID (t : Text) (i : Nat) : Option CrdtID :=
  if i = 0 then ((specKept t.items 0).head?).map (fun e => e.1)
  else specOwner (paraStart ((specFull t.items).splitOn 10) i - 1) (specKept t.items 0)

/-- Modelled from the spec: look the owner id up in the styles map; a
present entry gives its value, anything else is Plain. -/
def styleFromOpt (styles : List (CrdtID × LwwValue Nat)) : Option CrdtID → Nat
  | some oid =>
      match lookupA styles oid with
      | some v => v.value
      | none => StylePlain
  | none => StylePlain

/-- Modelled from the spec: the style of paragraph `i`. -/
def c3SpecStyle (t : Text) (i : Nat) : Nat :=
  styleFromOpt t.styles (c3OwnerID t i)

/-- The offsets recorded by `specKept` are consecutive: each entry
starts where the accumulator stood and advances it by its length. -/
def packed : Nat → List (CrdtID × Nat × Nat) → Prop
  | _, [] => True
  | off, (_, o, l) :: rest => o = off ∧ packed (o + l) rest

/-- The kept-item list really is packed from its base offset. -/
theorem packed_specKept (items : List TextItem) (off : Nat) :
    packed off (specKept items off) := by
  induction items generalizing off with
  | nil => trivial
  | cons it rest ih =>
      rw [specKept]
      by_cases hd : it.deletedLength > 0
      · simp only [if_pos hd]; exact ih off
      · simp only [if_neg hd]
        cases hv : it.value with
        | none => exact ih off
        | some s => exact ⟨rfl, ih (off + s.length)⟩

/-- The item starts the code records are the spec's kept items without
their lengths. -/
theorem collectItems_fst (items : List TextItem) (off : Nat) :
    (collectItems items off).1 = (specKept items off).map (fun e => (e.1, e.2.1)) := by
  induction items generalizing off with
  | nil => rfl
  | cons it rest ih =>
      rw [collectItems, specKept]
      by_cases hd : it.deletedLength > 0
      · simp only [if_pos hd]; exact ih off
      · simp only [if_neg hd]
        cases hv : it.value with
        | none => exact ih off
        | some s => simp only [List.map_cons, ih (off + s.length)]

/-- The text the code concatenates is the spec's concatenation. -/
theorem collectItems_snd (items : List TextItem) (off : Nat) :
    (collectItems items off).2 = specFull items := by
  induction items generalizing off with
  | nil => rfl
  | cons it rest ih =>
      rw [collectItems, specFull]
      by_cases hd : it.deletedLength > 0
      · simp only [if_pos hd]; exact ih off
      · simp only [if_neg hd]
        cases hv : it.value with
        | none => exact ih off
        | some s => simp only [ih (off + s.length)]

/-- The concatenated length is the total of the kept lengths. -/
theorem specFull_length (items : List TextItem) (off : Nat) :
    (specFull items).length = sumLens (specKept items off) := by
  induction items generalizing off with
  | nil => rfl
  | cons it rest ih =>
      rw [specFull, specKept]
      by_cases hd : it.deletedLength > 0
      · simp only [if_pos hd]; exact ih off
      · simp only [if_neg hd]
        cases hv : it.value with
        | none => exact ih off
        | some s =>
            simp only [List.length_append, sumLens, List.map_cons, List.sum_cons]
            rw [ih (off + s.length)]
            rfl

/-- One step of the code's covering-item search. -/
theorem findCovering_cons (pos total : Nat) (id : CrdtID) (st : Nat)
    (rest : List (CrdtID × Nat)) :
    findCovering pos total ((id, st) :: rest) =
      if st ≤ pos ∧ pos < (match rest with | [] => total | (_, st2) :: _ => st2)
      then some ⟨id.part1, id.part2 + (pos - st)⟩
      else findCovering pos total rest := by
  rw [findCovering.eq_def]

/-- On a packed list whose total length closes the last range, the
code's search (next start, or the text length, as the range end) finds
exactly the spec's owner (offset plus length as the range end). -/
theorem findCovering_specOwner (pos total : Nat) :
    ∀ (ks : List (CrdtID × Nat × Nat)) (off : Nat), packed off ks →
      total = off + sumLens ks →
      findCovering pos total (ks.map (fun e => (e.1, e.2.1))) = specOwner pos ks := by
  intro ks
  induction ks with
  | nil => intro off _ _; rfl
  | cons e rest ih =>
      intro off hp ht
      obtain ⟨id, o, l⟩ := e
      obtain ⟨ho, hp'⟩ := hp
      subst ho
      cases rest with
      | nil =>
          have htot : total = o + l := by
            simp only [sumLens, List.map_cons, List.map_nil, List.sum_cons,
              List.sum_nil] at ht
            omega
          simp only [List.map_cons, List.map_nil, findCovering, specOwner]
          rw [htot]
      | cons e2 rest2 =>
          obtain ⟨id2, o2, l2⟩ := e2
          obtain ⟨ho2, hp2⟩ := hp'
          have hrec := ih (o + l) ⟨ho2, hp2⟩ (by
            simp only [sumLens, List.map_cons, List.sum_cons] at ht ⊢
            omega)
          simp only [List.map_cons] at hrec
          rw [List.map_cons, List.map_cons, findCovering_cons]
          rw [ho2] at hrec
          rw [show specOwner pos ((id, o, l) :: (id2, o2, l2) :: rest2) =
            if o ≤ pos ∧ pos < o + l then some ⟨id.part1, id.part2 + (pos - o)⟩
            else specOwner pos ((id2, o2, l2) :: rest2) from rfl]
          dsimp only
          rw [ho2, hrec]

/-- Placeholder paragraph for indexed access. -/
def dPara : Paragraph := { text := [], style := StylePlain, startID := ⟨0, 0⟩ }

/-- One step of the paragraph loop, its style written through
`styleFromOpt` and its start id through `Option.getD`. -/
theorem buildParas_cons (styles : List (CrdtID × LwwValue Nat))
    (starts : List (CrdtID × Nat)) (total : Nat) (line : List Nat)
    (rest : List (List Nat)) (i0 cp0 : Nat) :
    buildParas styles starts total (line :: rest) i0 cp0 =
      { text := line,
        style := styleFromOpt styles (if i0 = 0 then starts.head?.map Prod.fst
          else findCovering (cp0 - 1) total starts),
        startID := (if i0 = 0 then starts.head?.map Prod.fst
          else findCovering cp0 total starts).getD ⟨0, 0⟩ } ::
        buildParas styles starts total rest (i0 + 1) (cp0 + line.length + 1) := by
  rw [buildParas.eq_def]
  by_cases hi : i0 = 0
  · subst hi
    cases starts with
    | nil => simp [styleFromOpt]
    | cons s0 srest =>
        obtain ⟨sid, soff⟩ := s0
        simp [styleFromOpt]
  · have hb : (i0 == 0) = false := by
      simp [hi]
    simp only [hb, Bool.false_eq_true, if_false, if_neg hi]
    cases hfc : findCovering (cp0 - 1) total starts with
    | none => simp [styleFromOpt]
    | some sid =>
        cases hlk : lookupA styles sid with
        | none => simp [styleFromOpt, hlk]
        | some v => simp [styleFromOpt, hlk]

/-- The paragraph list is as long as the line list. -/
theorem buildParas_length (styles : List (CrdtID × LwwValue Nat))
    (starts : List (CrdtID × Nat)) (total : Nat) :
    ∀ (lines : List (List Nat)) (i0 cp0 : Nat),
      (buildParas styles starts total lines i0 cp0).length = lines.length := by
  intro lines
  induction lines with
  | nil => intro _ _; rfl
  | cons line rest ih =>
      intro i0 cp0
      rw [buildParas_cons]
      simp only [List.length_cons, ih]

/-- The start of paragraph `k + 1` adds the first line and its newline. -/
theorem paraStart_cons_succ (line : List Nat) (rest : List (List Nat)) (k : Nat) :
    paraStart (line :: rest) (k + 1) = line.length + 1 + paraStart rest k := by
  simp [paraStart, List.take_succ_cons]

/-- The style of the `k`-th paragraph produced by the loop, as a lookup
of the owner derived from the accumulated character position. -/
theorem buildParas_getD_style (styles : List (CrdtID × LwwValue Nat))
    (starts : List (CrdtID × Nat)) (total : Nat) :
    ∀ (lines : List (List Nat)) (k i0 cp0 : Nat), k < lines.length →
      ((buildParas styles starts total lines i0 cp0).getD k dPara).style =
        styleFromOpt styles
          (if i0 + k = 0 then starts.head?.map Prod.fst
           else findCovering (cp0 + paraStart lines k - 1) total starts) := by
  intro lines
  induction lines with
  | nil =>
      intro k i0 cp0 hk
      exact absurd hk (by simp)
  | cons line rest ih =>
      intro k i0 cp0 hk
      cases k with
      | zero =>
          rw [buildParas_cons, List.getD_cons_zero]
          simp [paraStart]
      | succ k =>
          rw [buildParas_cons, List.getD_cons_succ]
          rw [ih k (i0 + 1) (cp0 + line.length + 1)
            (by simpa using Nat.lt_of_succ_lt_succ hk)]
          rw [if_neg (by omega), if_neg (by omega)]
          rw [paraStart_cons_succ]
          have harith : cp0 + line.length + 1 + paraStart rest k - 1 =
              cp0 + (line.length + 1 + paraStart rest k) - 1 := by omega
          rw [harith]

/-- Claim C3, confirmed: every paragraph's style is the styles-map entry
of its owner character id — for paragraph 0 the id of the first
character of the first kept (non-tombstone, string-valued) item, for
paragraph `i > 0` the id of the newline that terminated paragraph
`i - 1`, computed by adding (character position minus the owning item's
concatenation offset) to the owning item's `itemId.part2`; a missing
entry leaves the paragraph Plain. -/
theorem c3_style_owner (t : Text) (i : Nat)
    (h : i < (BuildTextDocument (some t)).paragraphs.length) :
    ((BuildTextDocument (some t)).paragraphs.getD i dPara).style = c3SpecStyle t i := by
  rcases hcs : collectItems t.items 0 with ⟨starts, full⟩
  have hstarts : starts = (specKept t.items 0).map (fun e => (e.1, e.2.1)) := by
    have hh := collectItems_fst t.items 0
    rw [hcs] at hh
    exact hh
  have hfull : full = specFull t.items := by
    have hh := collectItems_snd t.items 0
    rw [hcs] at hh
    exact hh
  have hB : BuildTextDocument (some t) =
      if full = [] then { paragraphs := [] }
      else { paragraphs := buildParas t.styles starts full.length (full.splitOn 10) 0 0 } := by
    rw [BuildTextDocument.eq_def]
    dsimp only
    rw [hcs]
  by_cases hemp : full = []
  · rw [hB, if_pos hemp] at h
    exact absurd h (by simp)
  · rw [hB, if_neg hemp] at h ⊢
    rw [buildParas_length] at h
    rw [buildParas_getD_style t.styles starts full.length (full.splitOn 10) i 0 0 h]
    rw [c3SpecStyle, c3OwnerID]
    simp only [Nat.zero_add]
    congr 1
    by_cases hi : i = 0
    · rw [if_pos hi, if_pos hi, hstarts, List.head?_map, Option.map_map]
      rfl
    · rw [if_neg hi, if_neg hi, hstarts, hfull]
      exact findCovering_specOwner _ _ (specKept t.items 0) 0 (packed_specKept t.items 0)
        (by rw [Nat.zero_add]; exact specFull_length t.items 0)

/-- A three-paragraph text for the C3 witness: items `"Hi\nB"` at
`(1, 10)`, a tombstone, and `"C\nD"` at `(1, 30)`; styles keyed by the
first character `(1, 10)`, the first newline `(1, 12)` and the second
newline `(1, 31)`. -/
def c3Text : Text :=
  { items := [
      { itemID := ⟨1, 10⟩, leftID := ⟨0, 0⟩, rightID := ⟨0, 0⟩, deletedLength := 0,
        value := some [72, 105, 10, 66] },
      { itemID := ⟨1, 20⟩, leftID := ⟨0, 0⟩, rightID := ⟨0, 0⟩, deletedLength := 1,
        value := some [88] },
      { itemID := ⟨1, 30⟩, leftID := ⟨0, 0⟩, rightID := ⟨0, 0⟩, deletedLength := 0,
        value := some [67, 10, 68] } ],
    styles := [(⟨1, 10⟩, ⟨⟨0, 1⟩, StyleHeading⟩), (⟨1, 12⟩, ⟨⟨0, 1⟩, StyleBold⟩),
      (⟨1, 31⟩, ⟨⟨0, 1⟩, StyleBullet⟩)],
    posX := 0, posY := 0, width := 0 }

/-- Witness for the C3 claim: on `c3Text` the third paragraph (index 2)
exists, the theorem applies, and the spec-side style — owned by the
newline id `(1, 31)` inside the second kept item — is Bullet. -/
theorem c3_style_owner_witness :
    2 < (BuildTextDocument (some c3Text)).paragraphs.length ∧
      ((BuildTextDocument (some c3Text)).paragraphs.getD 2 dPara).style =
        c3SpecStyle c3Text 2 ∧
      c3SpecStyle c3Text 2 = StyleBullet :=
  ⟨by decide, c3_style_owner c3Text 2 (by decide), by decide⟩

end RmcGo
